import Mathlib

/-
Verification development for the Match_analysis prediction and betting core.

Shallow embedding of the core components:
  * betting_analysis_service.py : Kelly criterion, expected value, bet analysis (ℚ)
  * performance_service.py      : bet settlement ledger (ℚ)
  * feature_engineer.py         : point-in-time statistics cache (ℚ)
  * elo_calculator.py           : Elo rating tracker (ℝ, uses 10^(x/400))
  * poisson_model.py            : Dixon-Coles Poisson scoreline model (ℝ, uses exp)

Python float arithmetic is idealised as exact arithmetic over ℚ (respectively ℝ
where transcendental functions occur); Python dicts are modelled as total
functions plus, where the key set matters, an explicit domain.
-/

namespace MatchAnalysis

/-! ### Helpers shared by the embedding -/

/-- The Python function `round(x, n)`: round to `n` decimal places, ties to even
(banker rounding), idealised over exact rationals. -/
def pyRound (x : ℚ) (n : ℕ) : ℚ :=
  let y := x * 10 ^ n
  let f := ⌊y⌋
  let frac := y - (f : ℚ)
  let r : ℤ :=
    if frac < 1/2 then f
    else if 1/2 < frac then f + 1
    else if f % 2 = 0 then f else f + 1
  (r : ℚ) / 10 ^ n

/-! ### betting_analysis_service.py -/

inductive RiskLevel
  | NONE | LOW | MEDIUM | HIGH
deriving DecidableEq

inductive ValueLevel
  | HIGH | MEDIUM | NEUTRAL
deriving DecidableEq

/-- Return dict of `calculate_kelly_criterion`. -/
structure KellyResult where
  kelly_percentage : ℚ
  kelly_raw : ℚ
  is_positive : Bool
  risk_level : RiskLevel
deriving DecidableEq

/-- Return dict of `calculate_value_level`. -/
structure ValueResult where
  level : ValueLevel
  ev : ℚ
  edge_percentage : ℚ
  implied_prob : ℚ
  recommendation : String
deriving DecidableEq

/-- Return dict of `analyze_bet_value`. -/
structure BetAnalysis where
  market : String
  ai_probability : ℚ
  odds_used : ℚ
  is_estimated_odds : Bool
  kelly_percentage : ℚ
  kelly_raw : ℚ
  risk_level : RiskLevel
  value_level : ValueLevel
  ev : ℚ
  edge_percentage : ℚ
  implied_prob : ℚ
  should_bet : Bool
  recommendation : String
deriving DecidableEq

def errProbRange : String := "Probability must be between 0 and 1"

def errOddsRange : String := "Decimal odds must be >= 1.0"

def errAiProbRange : String := "AI probability must be between 0 and 1 (exclusive of 0)"

def errMarginRange : String := "Bookmaker margin must be between 0 and 1"

def errNoOdds : String := "Odds not provided and estimation is disabled"

def recHigh : String := "Strong value bet - significant edge over bookmaker"

def recMedium : String := "Moderate value - small edge over bookmaker"

def recNeutral : String := "No significant value - avoid or small stake only"

/-- Python `calculate_kelly_criterion(probability, decimal_odds, max_kelly)`:
`f* = (b p - q)/b` with `b = odds - 1`, capped into `[0, max_kelly]`. -/
def calculate_kelly_criterion (probability decimal_odds max_kelly : ℚ) :
    Except String KellyResult :=
  if ¬ (0 ≤ probability ∧ probability ≤ 1) then .error errProbRange
  else if decimal_odds < 1 then .error errOddsRange
  else
    let b := decimal_odds - 1
    let p := probability
    let q := 1 - probability
    let kelly_raw : ℚ := if b = 0 then 0 else (b * p - q) / b
    let kelly_capped := max 0 (min kelly_raw max_kelly)
    let kelly_percentage := kelly_capped * 100
    let risk_level :=
      if kelly_percentage = 0 then RiskLevel.NONE
      else if kelly_percentage < 5 then RiskLevel.LOW
      else if kelly_percentage < 15 then RiskLevel.MEDIUM
      else RiskLevel.HIGH
    .ok { kelly_percentage := pyRound kelly_percentage 2,
          kelly_raw := pyRound kelly_raw 4,
          is_positive := decide (0 < kelly_raw),
          risk_level := risk_level }

/-- Python `calculate_value_level(probability, decimal_odds)`: `EV = p × odds`,
edge% = `(EV - 1) × 100`, tiers at `EV ≥ 1.15` and `EV ≥ 1.05`. -/
def calculate_value_level (probability decimal_odds : ℚ) :
    Except String ValueResult :=
  if ¬ (0 ≤ probability ∧ probability ≤ 1) then .error errProbRange
  else if decimal_odds < 1 then .error errOddsRange
  else
    let ev := probability * decimal_odds
    let edge_percentage := (ev - 1) * 100
    let implied_prob : ℚ := if 0 < decimal_odds then 1 / decimal_odds else 0
    let lvl := if 115/100 ≤ ev then ValueLevel.HIGH
      else if 105/100 ≤ ev then ValueLevel.MEDIUM
      else ValueLevel.NEUTRAL
    let rec0 := if 115/100 ≤ ev then recHigh
      else if 105/100 ≤ ev then recMedium
      else recNeutral
    .ok { level := lvl, ev := pyRound ev 3, edge_percentage := pyRound edge_percentage 2,
          implied_prob := pyRound implied_prob 4, recommendation := rec0 }

/-- Python `estimate_bookmaker_odds(ai_probability, bookmaker_margin)`:
`round(1 / (p × (1 - margin)), 2)` (fallback `1.01` on a degenerate product). -/
def estimate_bookmaker_odds (ai_probability bookmaker_margin : ℚ) : Except String ℚ :=
  if ¬ (0 < ai_probability ∧ ai_probability ≤ 1) then .error errAiProbRange
  else if ¬ (0 ≤ bookmaker_margin ∧ bookmaker_margin < 1) then .error errMarginRange
  else
    let adjusted_probability := ai_probability * (1 - bookmaker_margin)
    .ok (pyRound (if 0 < adjusted_probability then 1 / adjusted_probability else 101/100) 2)

/-- Python `analyze_bet_value(ai_probability, decimal_odds, market_name, use_estimated_odds)`:
combines Kelly and value level; `should_bet` needs positive raw Kelly, tier in
{HIGH, MEDIUM} and capped Kelly percentage ≥ 3. -/
def analyze_bet_value (ai_probability : ℚ) (decimal_odds : Option ℚ)
    (market_name : String) (use_estimated_odds : Bool) : Except String BetAnalysis :=
  let odds_res : Except String (ℚ × Bool) :=
    match decimal_odds with
    | none =>
        if ¬ use_estimated_odds then .error errNoOdds
        else (estimate_bookmaker_odds ai_probability (1/10)).map (fun odds => (odds, true))
    | some odds => .ok (odds, false)
  match odds_res with
  | .error e => .error e
  | .ok (odds, is_estimated) =>
    match calculate_kelly_criterion ai_probability odds (1/4),
          calculate_value_level ai_probability odds with
    | .error e, _ => .error e
    | .ok _, .error e => .error e
    | .ok kr, .ok vr =>
      let should_bet := kr.is_positive &&
        (decide (vr.level = ValueLevel.HIGH) || decide (vr.level = ValueLevel.MEDIUM)) &&
        decide ((3 : ℚ) ≤ kr.kelly_percentage)
      .ok { market := market_name,
            ai_probability := pyRound ai_probability 4,
            odds_used := odds,
            is_estimated_odds := is_estimated,
            kelly_percentage := kr.kelly_percentage,
            kelly_raw := kr.kelly_raw,
            risk_level := kr.risk_level,
            value_level := vr.level,
            ev := vr.ev,
            edge_percentage := vr.edge_percentage,
            implied_prob := vr.implied_prob,
            should_bet := should_bet,
            recommendation := vr.recommendation }

/-! ### performance_service.py — bet lifecycle ledger -/

inductive BetStatus
  | PENDING | WON | LOST
deriving DecidableEq

def statusFT : String := "FT"

def resultH : String := "H"

def resultA : String := "A"

def resultD : String := "D"

/-- A `bet_history` row; settlement fields are `none` until settlement. -/
structure BetRow where
  prediction_id : ℕ
  market : String
  stake_amount : ℚ
  odds : ℚ
  bankroll_at_bet : ℚ
  status : BetStatus
  actual_result : Option String
  is_winner : Option Bool
  pnl : Option ℚ
  roi_percent : Option ℚ
  bankroll_after : Option ℚ
deriving DecidableEq

/-- The match columns `update_bet_results` reads. -/
structure MatchRow where
  status : String
  home_goals : ℕ
  away_goals : ℕ
deriving DecidableEq

/-- The data `update_bet_results` joins over: bets, the prediction → match link,
and the match table. -/
structure LedgerDb where
  bets : List BetRow
  prediction_match : ℕ → ℕ
  matchRows : ℕ → MatchRow

/-- The settlement body of `update_bet_results` for one selected bet. -/
def settled_bet (mrow : MatchRow) (bet : BetRow) : BetRow :=
  let actual_result :=
    if mrow.home_goals > mrow.away_goals then resultH
    else if mrow.home_goals < mrow.away_goals then resultA
    else resultD
  let is_winner := decide (bet.market = actual_result)
  let pnl : ℚ := if is_winner then bet.stake_amount * bet.odds - bet.stake_amount
    else -bet.stake_amount
  { bet with
    status := if is_winner then BetStatus.WON else BetStatus.LOST,
    actual_result := some actual_result,
    is_winner := some is_winner,
    pnl := some pnl,
    roi_percent := some (if 0 < bet.stake_amount then pnl / bet.stake_amount * 100 else 0),
    bankroll_after := some (bet.bankroll_at_bet + pnl) }

/-- One bet under one `update_bet_results` pass: settled exactly when the query
`status == PENDING ∧ match.status == FT` selects it, untouched otherwise. -/
def settle_pass_bet (db : LedgerDb) (bet : BetRow) : BetRow :=
  let mrow := db.matchRows (db.prediction_match bet.prediction_id)
  if bet.status = BetStatus.PENDING ∧ mrow.status = statusFT then settled_bet mrow bet
  else bet

/-- Python `update_bet_results`: one settlement pass over the whole ledger. -/
def update_bet_results (db : LedgerDb) : LedgerDb :=
  { db with bets := db.bets.map (settle_pass_bet db) }

/-- The bets a pass settles (`updated_count` counts them). -/
def settledBets (db : LedgerDb) : List BetRow :=
  db.bets.filter (fun b => decide (b.status = BetStatus.WON) || decide (b.status = BetStatus.LOST))

/-! ### feature_engineer.py — point-in-time statistics cache -/

/-- A `matches` row as read by the feature engineer. -/
structure FMatch where
  league_id : ℕ
  home_team_id : ℕ
  away_team_id : ℕ
  match_date : ℕ
  status : String
  home_goals : Option ℕ
  away_goals : Option ℕ
deriving DecidableEq

/-- The `home_away` filter argument: all, home or away. -/
inductive Venue
  | all | home | away
deriving DecidableEq

def venueSelects (venue : Venue) (team_id : ℕ) (m : FMatch) : Bool :=
  match venue with
  | .all => decide (m.home_team_id = team_id) || decide (m.away_team_id = team_id)
  | .home => decide (m.home_team_id = team_id)
  | .away => decide (m.away_team_id = team_id)

/-- The `calculate_team_form` query: finished matches strictly before
`before_date` for the venue filter, most recent first, limited to `last_n`. -/
def recentMatches (history : List FMatch) (team_id before_date last_n : ℕ)
    (venue : Venue) : List FMatch :=
  ((history.filter (fun m =>
      decide (m.match_date < before_date) && decide (m.status = statusFT) &&
        venueSelects venue team_id m)).insertionSort
    (fun m1 m2 => m2.match_date ≤ m1.match_date)).take last_n

/-- Return dict of `calculate_team_form`. -/
structure TeamForm where
  wins : ℚ
  draws : ℚ
  losses : ℚ
  goals_for : ℚ
  goals_against : ℚ
  points : ℚ
  matches_played : ℕ
  win_rate : ℚ
  avg_goals_for : ℚ
  avg_goals_against : ℚ
  weighted_points : ℚ
deriving DecidableEq

/-- The fixed neutral baseline returned on an empty match selection. -/
def emptyForm : TeamForm :=
  { wins := 0, draws := 0, losses := 0, goals_for := 0, goals_against := 0,
    points := 0, matches_played := 0, win_rate := 0, avg_goals_for := 0,
    avg_goals_against := 0, weighted_points := 0 }

/-- Loop accumulators of `calculate_team_form`. -/
structure FormAcc where
  wins_weighted : ℚ
  draws_weighted : ℚ
  losses_weighted : ℚ
  goals_for_weighted : ℚ
  goals_against_weighted : ℚ
  weighted_points_sum : ℚ
  total_weight : ℚ
deriving DecidableEq

def formAccZero : FormAcc := ⟨0, 0, 0, 0, 0, 0, 0⟩

def decayFactor : ℚ := 85/100

/-- Python `weight = decay_factor ** i if use_recency_weights else 1.0`. -/
def matchWeight (use_recency_weights : Bool) (i : ℕ) : ℚ :=
  if use_recency_weights then decayFactor ^ i else 1

/-- Python `(team_goals, opponent_goals)` for one match (`match.xx_goals or 0`). -/
def teamGoals (team_id : ℕ) (m : FMatch) : ℕ × ℕ :=
  if m.home_team_id = team_id then (m.home_goals.getD 0, m.away_goals.getD 0)
  else (m.away_goals.getD 0, m.home_goals.getD 0)

/-- The `for i, match in enumerate(recent_matches)` loop of
`calculate_team_form`, carried at position index `i`. -/
def formLoop (team_id : ℕ) (use_recency_weights : Bool) :
    List FMatch → ℕ → FormAcc → FormAcc
  | [], _, acc => acc
  | m :: rest, i, acc =>
    let g := teamGoals team_id m
    let weight := matchWeight use_recency_weights i
    let match_points : ℚ := if g.1 > g.2 then 3 else if g.1 = g.2 then 1 else 0
    let acc1 : FormAcc :=
      { wins_weighted := acc.wins_weighted + (if g.1 > g.2 then weight else 0),
        draws_weighted := acc.draws_weighted + (if g.1 = g.2 then weight else 0),
        losses_weighted := acc.losses_weighted + (if g.1 < g.2 then weight else 0),
        goals_for_weighted := acc.goals_for_weighted + (g.1 : ℚ) * weight,
        goals_against_weighted := acc.goals_against_weighted + (g.2 : ℚ) * weight,
        weighted_points_sum := acc.weighted_points_sum + match_points * weight,
        total_weight := acc.total_weight + weight }
    formLoop team_id use_recency_weights rest (i + 1) acc1

/-- Python `calculate_team_form(team_id, before_date, last_n, home_away,
use_recency_weights)` against an in-memory match history. -/
def calculate_team_form (history : List FMatch) (team_id before_date last_n : ℕ)
    (venue : Venue) (use_recency_weights : Bool) : TeamForm :=
  let recent := recentMatches history team_id before_date last_n venue
  if recent = [] then emptyForm
  else
    let acc := formLoop team_id use_recency_weights recent 0 formAccZero
    let matches_played := recent.length
    let tw := acc.total_weight
    let wins := if 0 < tw then acc.wins_weighted / tw else 0
    let draws := if 0 < tw then acc.draws_weighted / tw else 0
    let losses := if 0 < tw then acc.losses_weighted / tw else 0
    let goals_for := if 0 < tw then acc.goals_for_weighted / tw else 0
    let goals_against := if 0 < tw then acc.goals_against_weighted / tw else 0
    let weighted_points := if 0 < tw then acc.weighted_points_sum / tw else 0
    let points : ℚ :=
      if use_recency_weights then (acc.wins_weighted * 3 + acc.draws_weighted) / max tw 1
      else if 0 < matches_played then
        (acc.wins_weighted * 3 + acc.draws_weighted) / (matches_played : ℚ)
      else 0
    { wins := wins, draws := draws, losses := losses, goals_for := goals_for,
      goals_against := goals_against, points := points, matches_played := matches_played,
      win_rate := wins, avg_goals_for := goals_for, avg_goals_against := goals_against,
      weighted_points := weighted_points }

/-- Return dict of `get_h2h_record`. -/
structure H2HRecord where
  h2h_matches : ℕ
  home_wins : ℕ
  draws : ℕ
  away_wins : ℕ
  avg_goals_home : ℚ
  avg_goals_away : ℚ
deriving DecidableEq

def emptyH2H : H2HRecord := ⟨0, 0, 0, 0, 0, 0⟩

/-- The `get_h2h_record` per-match tallies
`(home_wins, draws, away_wins, total_goals_ht, total_goals_at)`. -/
def h2hLoop (home_team_id : ℕ) (ms : List FMatch) : ℕ × ℕ × ℕ × ℕ × ℕ :=
  ms.foldl (fun acc m =>
    let hg := m.home_goals.getD 0
    let ag := m.away_goals.getD 0
    if m.home_team_id = home_team_id then
      (acc.1 + (if hg > ag then 1 else 0),
       acc.2.1 + (if hg = ag then 1 else 0),
       acc.2.2.1 + (if hg < ag then 1 else 0),
       acc.2.2.2.1 + hg, acc.2.2.2.2 + ag)
    else
      (acc.1 + (if ag < hg then 1 else 0),
       acc.2.1 + (if ag = hg then 1 else 0),
       acc.2.2.1 + (if ag > hg then 1 else 0),
       acc.2.2.2.1 + ag, acc.2.2.2.2 + hg)) (0, 0, 0, 0, 0)

/-- Python `get_h2h_record(home_team_id, away_team_id, before_date, last_n)`. -/
def get_h2h_record (history : List FMatch) (home_team_id away_team_id
    before_date last_n : ℕ) : H2HRecord :=
  let h2h := ((history.filter (fun m =>
      decide (m.match_date < before_date) && decide (m.status = statusFT) &&
        ((decide (m.home_team_id = home_team_id) && decide (m.away_team_id = away_team_id)) ||
         (decide (m.home_team_id = away_team_id) && decide (m.away_team_id = home_team_id))))).insertionSort
    (fun m1 m2 => m2.match_date ≤ m1.match_date)).take last_n
  if h2h = [] then emptyH2H
  else
    let t := h2hLoop home_team_id h2h
    let n := h2h.length
    { h2h_matches := n, home_wins := t.1, draws := t.2.1, away_wins := t.2.2.1,
      avg_goals_home := if 0 < n then (t.2.2.2.1 : ℚ) / (n : ℚ) else 0,
      avg_goals_away := if 0 < n then (t.2.2.2.2 : ℚ) / (n : ℚ) else 0 }

/-- League matches selected by `calculate_league_position`. -/
def leagueMatchesBefore (history : List FMatch) (league_id before_date : ℕ) :
    List FMatch :=
  history.filter (fun m =>
    decide (m.league_id = league_id) && decide (m.match_date < before_date) &&
      decide (m.status = statusFT))

/-- Key insertion into the standings dict (`if tid not in standings`). -/
def standingsInsert (acc : List ℕ) (t : ℕ) : List ℕ :=
  if t ∈ acc then acc else acc ++ [t]

/-- Standings-dict keys in insertion order (home then away of each match). -/
def standingsTeams (ms : List FMatch) : List ℕ :=
  ms.foldl (fun acc m => standingsInsert (standingsInsert acc m.home_team_id) m.away_team_id) []

/-- Accumulated standings points of one team over the selected matches. -/
def teamPoints (ms : List FMatch) (t : ℕ) : ℤ :=
  ms.foldl (fun acc m =>
    let hg := m.home_goals.getD 0
    let ag := m.away_goals.getD 0
    acc + (if m.home_team_id = t then (if hg > ag then 3 else if hg = ag then 1 else 0) else 0)
        + (if m.away_team_id = t then (if ag > hg then 3 else if hg = ag then 1 else 0) else 0))
    0

/-- Accumulated goal difference of one team over the selected matches. -/
def teamGD (ms : List FMatch) (t : ℕ) : ℤ :=
  ms.foldl (fun acc m =>
    let hg := (m.home_goals.getD 0 : ℤ)
    let ag := (m.away_goals.getD 0 : ℤ)
    acc + (if m.home_team_id = t then hg - ag else 0)
        + (if m.away_team_id = t then ag - hg else 0)) 0

/-- The sort key `(points, gd)` of the standings. -/
def standingsKey (lm : List FMatch) (t : ℕ) : ℤ × ℤ := (teamPoints lm t, teamGD lm t)

/-- Python `sorted(standings.items(), key=(points, gd), reverse=True)` as a stable
descending comparison: `a` may precede `b` when the key of `b` does not lexically
exceed that of `a`. -/
def standingsRel (lm : List FMatch) (a b : ℕ) : Prop :=
  (standingsKey lm b).1 < (standingsKey lm a).1 ∨
    ((standingsKey lm b).1 = (standingsKey lm a).1 ∧
      (standingsKey lm b).2 ≤ (standingsKey lm a).2)

instance (lm : List FMatch) : DecidableRel (standingsRel lm) :=
  fun a b => inferInstanceAs (Decidable (_ ∨ _))

/-- The standings table in descending (points, gd) order. -/
def sortedStandings (lm : List FMatch) : List ℕ :=
  (standingsTeams lm).insertionSort (standingsRel lm)

/-- Python `calculate_league_position(team_id, league_id, before_date)`: standings
sorted by (points, gd) descending; 10 with no matches; half the table when the
team is absent from the standings. -/
def calculate_league_position (history : List FMatch) (team_id league_id
    before_date : ℕ) : ℕ :=
  let league_matches := leagueMatchesBefore history league_id before_date
  if league_matches = [] then 10
  else
    match (sortedStandings league_matches).findIdx? (fun t => decide (t = team_id)) with
    | some idx => idx + 1
    | none => (sortedStandings league_matches).length / 2

/-! ### elo_calculator.py — Elo rating tracker -/

/-- A finished match as consumed by `calculate_all_ratings`. -/
structure EloMatch where
  home_team_id : ℕ
  away_team_id : ℕ
  home_goals : ℕ
  away_goals : ℕ
  match_date : ℕ
deriving DecidableEq

/-- Python `EloCalculator` state: parameters, the `ratings` dict (value function plus
explicit key set) and the `rating_history` dict (empty list for absent keys,
exactly the observable dict behaviour here). -/
structure EloState where
  k_factor : ℝ
  home_advantage : ℝ
  dom : Finset ℕ
  ratingF : ℕ → ℝ
  historyF : ℕ → List (ℕ × ℝ)

def INITIAL_ELO : ℝ := 1500

noncomputable section

/-- Python `get_rating`: `self.ratings.get(team_id, INITIAL_ELO)`. -/
def get_rating (s : EloState) (team_id : ℕ) : ℝ :=
  if team_id ∈ s.dom then s.ratingF team_id else INITIAL_ELO

/-- Python `get_expected_score(home_elo, away_elo)`:
`1 / (1 + 10^((away − (home + home_advantage)) / 400))`, away = complement. -/
def get_expected_score (s : EloState) (home_elo away_elo : ℝ) : ℝ × ℝ :=
  let adjusted_home_elo := home_elo + s.home_advantage
  let home_expected := 1 / (1 + (10 : ℝ) ^ ((away_elo - adjusted_home_elo) / 400))
  (home_expected, 1 - home_expected)

/-- Python `get_actual_score(home_goals, away_goals)`: win 1, draw 0.5, loss 0. -/
def get_actual_score (home_goals away_goals : ℕ) : ℝ × ℝ :=
  if home_goals > away_goals then (1, 0)
  else if home_goals < away_goals then (0, 1)
  else (1/2, 1/2)

/-- Python `update_ratings`: the returned pair `(new_home_elo, new_away_elo)` together
with the mutated state (ratings written home-then-away, history appended
home-then-away). -/
def update_ratings (s : EloState) (mt : EloMatch) : EloState × ℝ × ℝ :=
  let home_elo := get_rating s mt.home_team_id
  let away_elo := get_rating s mt.away_team_id
  let expected := get_expected_score s home_elo away_elo
  let actual := get_actual_score mt.home_goals mt.away_goals
  let new_home_elo := home_elo + s.k_factor * (actual.1 - expected.1)
  let new_away_elo := away_elo + s.k_factor * (actual.2 - expected.2)
  ({ s with
      dom := insert mt.away_team_id (insert mt.home_team_id s.dom),
      ratingF := Function.update (Function.update s.ratingF mt.home_team_id new_home_elo)
        mt.away_team_id new_away_elo,
      historyF := fun t =>
        s.historyF t ++
          (if t = mt.home_team_id then [(mt.match_date, new_home_elo)] else []) ++
          (if t = mt.away_team_id then [(mt.match_date, new_away_elo)] else []) },
   new_home_elo, new_away_elo)

/-- The `for match in matches` replay loop of `calculate_all_ratings`. -/
def replayMatches (s : EloState) : List EloMatch → EloState
  | [] => s
  | mt :: rest => replayMatches (update_ratings s mt).1 rest

/-- Fresh calculator state (`ratings = {}`, `rating_history = {}`). -/
def initEloState (k_factor home_advantage : ℝ) : EloState :=
  { k_factor := k_factor, home_advantage := home_advantage, dom := ∅,
    ratingF := fun _ => INITIAL_ELO, historyF := fun _ => [] }

/-- Python `calculate_all_ratings`: reset, then replay the finished matches the query
hands over (ordered by `match_date`). -/
def calculate_all_ratings (k_factor home_advantage : ℝ) (ms : List EloMatch) :
    EloState :=
  replayMatches (initEloState k_factor home_advantage) ms

/-- The `for date, elo in history` scan of `get_rating_at_date`, with the
`break` on the first entry not strictly before the target date. -/
def ratingScan (target_date : ℕ) : List (ℕ × ℝ) → ℝ → ℝ
  | [], r => r
  | e :: rest, r => if e.1 < target_date then ratingScan target_date rest e.2 else r

/-- Python `get_rating_at_date(team_id, target_date)` (a team with no history entry
yields `INITIAL_ELO`, exactly the scan on the empty list). -/
def get_rating_at_date (s : EloState) (team_id target_date : ℕ) : ℝ :=
  ratingScan target_date (s.historyF team_id) INITIAL_ELO

/-! ### poisson_model.py — Dixon-Coles Poisson scoreline model -/

/-- Python `scipy.stats.poisson.pmf(k, lam)` idealised over ℝ. -/
def poisson_pmf (lam : ℝ) (k : ℕ) : ℝ :=
  Real.exp (-lam) * lam ^ k / (Nat.factorial k : ℝ)

end

/-- Python `PoissonGoalModel` state: league averages, the attack/defense dicts (read
only through `.get(team_id, 1.0)`, hence modelled as total functions), and the
Dixon-Coles correlation parameter. -/
structure PoissonModel where
  league_avg_home_goals : ℝ
  league_avg_away_goals : ℝ
  team_attack : ℕ → ℝ
  team_defense : ℕ → ℝ
  rho : ℝ

def POISSON_HOME_ADVANTAGE : ℝ := 0.25

def MAX_GOALS : ℕ := 8

noncomputable section

/-- Python `get_expected_goals`: strength products plus home advantage, clamped to
`[0.3, 4.0]` (home) and `[0.3, 3.5]` (away). -/
def get_expected_goals (m : PoissonModel) (home_team_id away_team_id : ℕ) : ℝ × ℝ :=
  let home_attack := m.team_attack home_team_id
  let home_defense := m.team_defense home_team_id
  let away_attack := m.team_attack away_team_id
  let away_defense := m.team_defense away_team_id
  let lambda_home := home_attack * away_defense * m.league_avg_home_goals +
    POISSON_HOME_ADVANTAGE
  let lambda_away := away_attack * home_defense * m.league_avg_away_goals
  (max 0.3 (min 4.0 lambda_home), max 0.3 (min 3.5 lambda_away))

/-- Python `dixon_coles_adjustment`: `τ = 1 − λ_home·λ_away·ρ` on the four low-score
cells, `1` elsewhere. -/
def dixon_coles_adjustment (m : PoissonModel) (home_goals away_goals : ℕ)
    (lambda_home lambda_away : ℝ) : ℝ :=
  if home_goals > 1 ∨ away_goals > 1 then 1
  else 1 - lambda_home * lambda_away * m.rho

end

/-- The score keys `f"{i}-{j}"` for `i, j ∈ [0, MAX_GOALS]`, as pairs. -/
def scoreGrid : Finset (ℕ × ℕ) :=
  Finset.range (MAX_GOALS + 1) ×ˢ Finset.range (MAX_GOALS + 1)

noncomputable section

/-- The unnormalised adjusted matrix built by `predict_score_probabilities`:
independent Poisson cell times the Dixon-Coles factor. -/
def score_matrix (m : PoissonModel) (home_team_id away_team_id : ℕ) :
    ℕ × ℕ → ℝ :=
  fun p =>
    let lams := get_expected_goals m home_team_id away_team_id
    poisson_pmf lams.1 p.1 * poisson_pmf lams.2 p.2 *
      dixon_coles_adjustment m p.1 p.2 lams.1 lams.2

/-- Python `predict_score_probabilities`: normalise the matrix when its total mass is
positive. -/
def predict_score_probabilities (m : PoissonModel) (home_team_id away_team_id : ℕ) :
    ℕ × ℕ → ℝ :=
  let raw := score_matrix m home_team_id away_team_id
  let total_prob := ∑ p ∈ scoreGrid, raw p
  if 0 < total_prob then fun p => raw p / total_prob else raw

/-- The score distribution `predict_match` aggregates: the
`predict_score_probabilities` output after the defensive renormalisation check
(`abs(total - 1) > 0.001`). -/
def match_score_dist (m : PoissonModel) (home_team_id away_team_id : ℕ) :
    ℕ × ℕ → ℝ :=
  let sp := predict_score_probabilities m home_team_id away_team_id
  let total_prob := ∑ p ∈ scoreGrid, sp p
  if 1/1000 < |total_prob - 1| then fun p => sp p / total_prob else sp

end

/-- Python `_is_home_win` on a parsed score key. -/
def isHomeWin (p : ℕ × ℕ) : Prop := p.2 < p.1

/-- Python `_is_draw` on a parsed score key. -/
def isDraw (p : ℕ × ℕ) : Prop := p.1 = p.2

/-- Python `_is_away_win` on a parsed score key. -/
def isAwayWin (p : ℕ × ℕ) : Prop := p.1 < p.2

/-- Python `_total_goals(k) > threshold` for the over/under thresholds (the Python
comparison is `int > float`). -/
def overGoals (threshold : ℚ) (p : ℕ × ℕ) : Prop := threshold < ((p.1 + p.2 : ℕ) : ℚ)

/-- Python `_is_btts` on a parsed score key. -/
def isBtts (p : ℕ × ℕ) : Prop := 1 ≤ p.1 ∧ 1 ≤ p.2

instance : DecidablePred isHomeWin :=
  fun p => inferInstanceAs (Decidable (p.2 < p.1))

instance : DecidablePred isDraw :=
  fun p => inferInstanceAs (Decidable (p.1 = p.2))

instance : DecidablePred isAwayWin :=
  fun p => inferInstanceAs (Decidable (p.1 < p.2))

instance (threshold : ℚ) : DecidablePred (overGoals threshold) :=
  fun p => inferInstanceAs (Decidable (threshold < ((p.1 + p.2 : ℕ) : ℚ)))

instance : DecidablePred isBtts :=
  fun p => inferInstanceAs (Decidable (1 ≤ p.1 ∧ 1 ≤ p.2))

noncomputable section

/-- Sum of the aggregated score distribution over the cells satisfying a
market predicate — the `sum(v for k, v in score_probs.items() if pred(k))`
pattern of `predict_match`. -/
def marketSum (m : PoissonModel) (home_team_id away_team_id : ℕ)
    (pred : ℕ × ℕ → Prop) [DecidablePred pred] : ℝ :=
  ∑ p ∈ scoreGrid.filter pred, match_score_dist m home_team_id away_team_id p

/-- Python `prob_home` of `predict_match`. -/
def prob_home (m : PoissonModel) (h a : ℕ) : ℝ := marketSum m h a isHomeWin

/-- Python `prob_draw` of `predict_match`. -/
def prob_draw (m : PoissonModel) (h a : ℕ) : ℝ := marketSum m h a isDraw

/-- Python `prob_away` of `predict_match`. -/
def prob_away (m : PoissonModel) (h a : ℕ) : ℝ := marketSum m h a isAwayWin

/-- Python `prob_over_25` of `predict_match`. -/
def prob_over_25 (m : PoissonModel) (h a : ℕ) : ℝ := marketSum m h a (overGoals (5/2))

/-- Python `prob_btts` of `predict_match`. -/
def prob_btts (m : PoissonModel) (h a : ℕ) : ℝ := marketSum m h a isBtts

/-- Python `combo_1_over_25` of `predict_match` (before the 4-decimal rounding of the
JSON payload). -/
def combo_1_over_25 (m : PoissonModel) (h a : ℕ) : ℝ :=
  marketSum m h a (fun p => isHomeWin p ∧ overGoals (5/2) p)

/-- Python `combo_2_over_25` of `predict_match` (unrounded). -/
def combo_2_over_25 (m : PoissonModel) (h a : ℕ) : ℝ :=
  marketSum m h a (fun p => isAwayWin p ∧ overGoals (5/2) p)

/-- Python `combo_x_under_25` of `predict_match` (unrounded). -/
def combo_x_under_25 (m : PoissonModel) (h a : ℕ) : ℝ :=
  marketSum m h a (fun p => isDraw p ∧ ¬ overGoals (5/2) p)

/-- Python `combo_1_btts` of `predict_match` (unrounded). -/
def combo_1_btts (m : PoissonModel) (h a : ℕ) : ℝ :=
  marketSum m h a (fun p => isHomeWin p ∧ isBtts p)

/-- Python `combo_2_btts` of `predict_match` (unrounded). -/
def combo_2_btts (m : PoissonModel) (h a : ℕ) : ℝ :=
  marketSum m h a (fun p => isAwayWin p ∧ isBtts p)

/-- Python `combo_x_btts` of `predict_match` (unrounded). -/
def combo_x_btts (m : PoissonModel) (h a : ℕ) : ℝ :=
  marketSum m h a (fun p => isDraw p ∧ isBtts p)

/-- Python `combo_gg_over_25` of `predict_match` (unrounded). -/
def combo_gg_over_25 (m : PoissonModel) (h a : ℕ) : ℝ :=
  marketSum m h a (fun p => isBtts p ∧ overGoals (5/2) p)

end

/-! ### Claim C3 — Kelly / value analysis scenario -/

def market1X2 : String := "1X2"

/-- Claim C3: for probability 0.60 and decimal odds 2.00 with default parameters,
`analyze_bet_value` returns expected value 1.20, edge 20.0%, raw Kelly 0.20,
capped Kelly percentage 20.0, value level HIGH, risk level HIGH and
`should_bet = true`. -/
theorem analyze_bet_value_scenario_60_200 :
    ∃ r : BetAnalysis, analyze_bet_value (6/10) (some 2) market1X2 true = Except.ok r ∧
      r.ev = 12/10 ∧ r.edge_percentage = 20 ∧ r.kelly_raw = 2/10 ∧
      r.kelly_percentage = 20 ∧ r.value_level = ValueLevel.HIGH ∧
      r.risk_level = RiskLevel.HIGH ∧ r.should_bet = true := by
  refine ⟨{ market := market1X2, ai_probability := 6/10, odds_used := 2,
            is_estimated_odds := false, kelly_percentage := 20, kelly_raw := 1/5,
            risk_level := RiskLevel.HIGH, value_level := ValueLevel.HIGH, ev := 6/5,
            edge_percentage := 20, implied_prob := 1/2, should_bet := true,
            recommendation := recHigh }, ?_, by norm_num, by norm_num, by norm_num,
          by norm_num, rfl, rfl, rfl⟩
  norm_num [analyze_bet_value, calculate_kelly_criterion, calculate_value_level, pyRound]

/-! ### Claim C5 — settlement formulas -/

/-- Claim C5: a PENDING bet whose linked match has finished is settled by
`update_bet_results` with `actual_result` from the goal comparison,
`is_winner = (market == actual_result)`, `pnl = stake·(odds−1)` on a win and
`−stake` on a loss, `roi_percent = pnl/stake·100`, and
`bankroll_after = bankroll_at_bet + pnl`. -/
theorem update_bet_results_settles_pending (db : LedgerDb) (bet : BetRow)
    (hmem : bet ∈ db.bets) (hpend : bet.status = BetStatus.PENDING)
    (hft : (db.matchRows (db.prediction_match bet.prediction_id)).status = statusFT)
    (hstake : 0 < bet.stake_amount) :
    let mrow := db.matchRows (db.prediction_match bet.prediction_id)
    let actual := if mrow.home_goals > mrow.away_goals then resultH
      else if mrow.home_goals < mrow.away_goals then resultA else resultD
    let win := decide (bet.market = actual)
    let pnl : ℚ := if win then bet.stake_amount * (bet.odds - 1) else -bet.stake_amount
    settle_pass_bet db bet ∈ (update_bet_results db).bets ∧
      (settle_pass_bet db bet).status = (if win then BetStatus.WON else BetStatus.LOST) ∧
      (settle_pass_bet db bet).actual_result = some actual ∧
      (settle_pass_bet db bet).is_winner = some win ∧
      (settle_pass_bet db bet).pnl = some pnl ∧
      (settle_pass_bet db bet).roi_percent = some (pnl / bet.stake_amount * 100) ∧
      (settle_pass_bet db bet).bankroll_after = some (bet.bankroll_at_bet + pnl) := by
  intro mrow actual win pnl
  have hsel : settle_pass_bet db bet = settled_bet mrow bet := by
    unfold settle_pass_bet
    rw [if_pos ⟨hpend, hft⟩]
  have hpnl : (if win = true then bet.stake_amount * bet.odds - bet.stake_amount
      else -bet.stake_amount) = pnl := by
    by_cases hw : win = true <;> simp [pnl, hw] <;> ring
  refine ⟨?_, ?_, ?_, ?_, ?_, ?_, ?_⟩
  · exact List.mem_map_of_mem (settle_pass_bet db) hmem
  · rw [hsel]; rfl
  · rw [hsel]; rfl
  · rw [hsel]; rfl
  · rw [hsel]
    show some _ = some pnl
    rw [← hpnl]
  · rw [hsel]
    show some (if 0 < bet.stake_amount then _ / bet.stake_amount * 100 else 0) = _
    rw [if_pos hstake, hpnl]
  · rw [hsel]
    show some (bet.bankroll_at_bet + _) = _
    rw [hpnl]

def c5Bet : BetRow :=
  { prediction_id := 1, market := resultH, stake_amount := 100, odds := 5/2,
    bankroll_at_bet := 1000, status := BetStatus.PENDING, actual_result := none,
    is_winner := none, pnl := none, roi_percent := none, bankroll_after := none }

def c5Db : LedgerDb :=
  { bets := [c5Bet], prediction_match := fun _ => 7,
    matchRows := fun _ => { status := statusFT, home_goals := 2, away_goals := 1 } }

/-- Claim C5 witness: a bet on market H with stake 100 at odds 2.50 on a match
finishing 2-1 settles WON with pnl 150, roi 150%, and bankroll 1000 + 150. -/
theorem update_bet_results_settles_pending_witness :
    (settle_pass_bet c5Db c5Bet).status = BetStatus.WON ∧
    (settle_pass_bet c5Db c5Bet).pnl = some 150 ∧
    (settle_pass_bet c5Db c5Bet).roi_percent = some 150 ∧
    (settle_pass_bet c5Db c5Bet).bankroll_after = some (1000 + 150) := by
  have h := update_bet_results_settles_pending c5Db c5Bet
    (List.mem_singleton.mpr rfl) rfl rfl (by norm_num [c5Bet])
  obtain ⟨-, h2, -, -, h5, h6, h7⟩ := h
  refine ⟨?_, ?_, ?_, ?_⟩
  · rw [h2]; decide
  · rw [h5]; norm_num [c5Bet, c5Db, resultH, resultA, resultD]
  · rw [h6]; norm_num [c5Bet, c5Db, resultH, resultA, resultD]
  · rw [h7]; norm_num [c5Bet, c5Db, resultH, resultA, resultD]

/-! ### Claim C6 — settlement idempotence -/

/-- One settlement pass is idempotent on a single bet: a bet settled by the
first pass is no longer PENDING and the status guard skips it afterwards. -/
theorem settle_pass_bet_idem (db : LedgerDb) (bet : BetRow) :
    settle_pass_bet db (settle_pass_bet db bet) = settle_pass_bet db bet := by
  unfold settle_pass_bet
  by_cases h : bet.status = BetStatus.PENDING ∧
      (db.matchRows (db.prediction_match bet.prediction_id)).status = statusFT
  · rw [if_pos h]
    unfold settled_bet
    by_cases hw : decide (bet.market = (if (db.matchRows (db.prediction_match
        bet.prediction_id)).home_goals > (db.matchRows (db.prediction_match
        bet.prediction_id)).away_goals then resultH
      else if (db.matchRows (db.prediction_match bet.prediction_id)).home_goals <
        (db.matchRows (db.prediction_match bet.prediction_id)).away_goals then resultA
      else resultD)) = true <;>
      simp [hw]
  · rw [if_neg h, if_neg h]

/-- Settling an already-settled ledger changes nothing. -/
theorem update_bet_results_idem (db : LedgerDb) :
    update_bet_results (update_bet_results db) = update_bet_results db := by
  show ({ update_bet_results db with
      bets := (db.bets.map (settle_pass_bet db)).map (settle_pass_bet db) } : LedgerDb) = _
  have h : (db.bets.map (settle_pass_bet db)).map (settle_pass_bet db) =
      db.bets.map (settle_pass_bet db) := by
    rw [List.map_map]
    have hcomp : settle_pass_bet db ∘ settle_pass_bet db = settle_pass_bet db := by
      funext bet
      exact settle_pass_bet_idem db bet
    rw [hcomp]
  rw [h]
  rfl

/-- Claim C6: `update_bet_results` only selects PENDING bets, so a WON or LOST bet is
never modified, and after N ≥ 1 passes over the same data the ledger — in
particular its set and count of settled bets — equals the ledger after one
pass. -/
theorem update_bet_results_idempotent (db : LedgerDb) (n : ℕ) (hn : 1 ≤ n) :
    update_bet_results^[n] db = update_bet_results db ∧
    settledBets (update_bet_results^[n] db) = settledBets (update_bet_results db) ∧
    (settledBets (update_bet_results^[n] db)).length =
      (settledBets (update_bet_results db)).length ∧
    ∀ bet ∈ db.bets, bet.status ≠ BetStatus.PENDING → settle_pass_bet db bet = bet := by
  have hiter : update_bet_results^[n] db = update_bet_results db := by
    induction n with
    | zero => omega
    | succ m ih =>
      cases Nat.eq_zero_or_pos m with
      | inl h0 => subst h0; simp
      | inr h1 =>
        rw [Function.iterate_succ_apply', ih h1]
        exact update_bet_results_idem db
  refine ⟨hiter, by rw [hiter], by rw [hiter], ?_⟩
  intro bet _ hst
  unfold settle_pass_bet
  rw [if_neg]
  intro hcon
  exact hst hcon.1

def c6Db : LedgerDb :=
  { bets := [c5Bet], prediction_match := fun _ => 7,
    matchRows := fun _ => { status := statusFT, home_goals := 2, away_goals := 1 } }

/-- Claim C6 witness: two passes over a concrete ledger equal one pass. -/
theorem update_bet_results_idempotent_witness :
    1 ≤ 2 ∧ update_bet_results^[2] c6Db = update_bet_results c6Db :=
  ⟨by norm_num, (update_bet_results_idempotent c6Db 2 (by norm_num)).1⟩

def c7hist : List FMatch :=
  [{ league_id := 1, home_team_id := 1, away_team_id := 2, match_date := 10,
     status := statusFT, home_goals := some 2, away_goals := some 1 }]

/-- Claim C7 counterexample: team id 99 is unknown to the concrete match
history, yet no error is reported to the caller — `calculate_team_form`
silently returns the same neutral all-zero baseline as for an empty history,
`get_h2h_record` the zero record, and `calculate_league_position` a coerced
default position. This refutes the claim that a missing team is a
configuration error reported to the caller rather than silently coerced. -/
theorem missing_team_silently_coerced :
    calculate_team_form c7hist 99 20 5 Venue.all false = emptyForm ∧
    calculate_team_form ([] : List FMatch) 99 20 5 Venue.all false = emptyForm ∧
    get_h2h_record c7hist 99 3 20 5 = emptyH2H ∧
    calculate_league_position c7hist 99 1 20 = 1 :=
  ⟨rfl, rfl, rfl, by decide⟩

/-! ### Claim C10 — team form fractions -/

/-- Match counted as a win for the team. -/
def winPred (t : ℕ) (m : FMatch) : Bool := decide ((teamGoals t m).2 < (teamGoals t m).1)

/-- Match counted as a draw for the team. -/
def drawPred (t : ℕ) (m : FMatch) : Bool := decide ((teamGoals t m).1 = (teamGoals t m).2)

/-- Match counted as a loss for the team. -/
def lossPred (t : ℕ) (m : FMatch) : Bool := decide ((teamGoals t m).1 < (teamGoals t m).2)

theorem matchWeight_pos (w : Bool) (i : ℕ) : 0 < matchWeight w i := by
  cases w
  · simp [matchWeight]
  · simp only [matchWeight, if_pos]
    have : (0 : ℚ) < decayFactor := by norm_num [decayFactor]
    positivity

/-- Each loop step puts its weight in exactly one of the win/draw/loss buckets,
so the three buckets always total the accumulated weight. -/
theorem formLoop_buckets (t : ℕ) (w : Bool) :
    ∀ (ms : List FMatch) (i : ℕ) (acc : FormAcc),
      (formLoop t w ms i acc).wins_weighted + (formLoop t w ms i acc).draws_weighted +
          (formLoop t w ms i acc).losses_weighted - (formLoop t w ms i acc).total_weight =
        acc.wins_weighted + acc.draws_weighted + acc.losses_weighted - acc.total_weight
  | [], i, acc => by simp [formLoop]
  | m :: rest, i, acc => by
    rw [formLoop]
    rw [formLoop_buckets t w rest (i + 1)]
    dsimp only
    rcases Nat.lt_trichotomy (teamGoals t m).1 (teamGoals t m).2 with h | h | h
    · rw [if_neg (by omega), if_neg (by omega), if_pos h]
      ring
    · rw [if_neg (by omega), if_pos h, if_neg (by omega)]
      ring
    · rw [if_pos h, if_neg (by omega), if_neg (by omega)]
      ring

/-- The accumulated weight never decreases along the loop. -/
theorem formLoop_weight_mono (t : ℕ) (w : Bool) :
    ∀ (ms : List FMatch) (i : ℕ) (acc : FormAcc),
      acc.total_weight ≤ (formLoop t w ms i acc).total_weight
  | [], i, acc => by simp [formLoop]
  | m :: rest, i, acc => by
    rw [formLoop]
    refine le_trans ?_ (formLoop_weight_mono t w rest (i + 1) _)
    dsimp only
    have := matchWeight_pos w i
    linarith

/-- A non-empty selection accumulates strictly positive total weight. -/
theorem formLoop_weight_pos (t : ℕ) (w : Bool) (m : FMatch) (rest : List FMatch)
    (i : ℕ) (acc : FormAcc) (hacc : 0 ≤ acc.total_weight) :
    0 < (formLoop t w (m :: rest) i acc).total_weight := by
  rw [formLoop]
  refine lt_of_lt_of_le ?_ (formLoop_weight_mono t w rest (i + 1) _)
  dsimp only
  have := matchWeight_pos w i
  linarith

theorem filterConsLen (p : FMatch → Bool) (m : FMatch) (rest : List FMatch) :
    (((m :: rest).filter p).length : ℚ) =
      (if p m = true then 1 else 0) + ((rest.filter p).length : ℚ) := by
  by_cases h : p m = true <;> simp [List.filter_cons, h] <;> ring

/-- With recency weighting disabled every weight is 1, so the buckets count
matches and the total weight counts the selection length. -/
theorem formLoop_unweighted (t : ℕ) (ms : List FMatch) :
    ∀ (i : ℕ) (acc : FormAcc),
      (formLoop t false ms i acc).wins_weighted =
          acc.wins_weighted + ((ms.filter (winPred t)).length : ℚ) ∧
        (formLoop t false ms i acc).draws_weighted =
          acc.draws_weighted + ((ms.filter (drawPred t)).length : ℚ) ∧
        (formLoop t false ms i acc).losses_weighted =
          acc.losses_weighted + ((ms.filter (lossPred t)).length : ℚ) ∧
        (formLoop t false ms i acc).total_weight =
          acc.total_weight + (ms.length : ℚ) := by
  induction ms with
  | nil => intro i acc; simp [formLoop]
  | cons m rest ih =>
    intro i acc
    rw [formLoop]
    refine ⟨?_, ?_, ?_, ?_⟩
    · rw [(ih (i + 1) _).1]
      dsimp only
      rw [filterConsLen (winPred t) m rest]
      rcases Nat.lt_trichotomy (teamGoals t m).1 (teamGoals t m).2 with h | h | h
      · rw [if_neg (by omega), if_neg (by simp [winPred]; omega)]
        push_cast
        ring
      · rw [if_neg (by omega), if_neg (by simp [winPred]; omega)]
        push_cast
        ring
      · rw [if_pos (by omega), if_pos (by simp [winPred]; omega)]
        simp only [matchWeight, Bool.false_eq_true, if_false]
        push_cast
        ring
    · rw [(ih (i + 1) _).2.1]
      dsimp only
      rw [filterConsLen (drawPred t) m rest]
      rcases Nat.lt_trichotomy (teamGoals t m).1 (teamGoals t m).2 with h | h | h
      · rw [if_neg (by omega), if_neg (by simp [drawPred]; omega)]
        push_cast
        ring
      · rw [if_pos h, if_pos (by simp [drawPred]; omega)]
        simp only [matchWeight, Bool.false_eq_true, if_false]
        push_cast
        ring
      · rw [if_neg (by omega), if_neg (by simp [drawPred]; omega)]
        push_cast
        ring
    · rw [(ih (i + 1) _).2.2.1]
      dsimp only
      rw [filterConsLen (lossPred t) m rest]
      rcases Nat.lt_trichotomy (teamGoals t m).1 (teamGoals t m).2 with h | h | h
      · rw [if_pos h, if_pos (by simp [lossPred]; omega)]
        simp only [matchWeight, Bool.false_eq_true, if_false]
        push_cast
        ring
      · rw [if_neg (by omega), if_neg (by simp [lossPred]; omega)]
        push_cast
        ring
      · rw [if_neg (by omega), if_neg (by simp [lossPred]; omega)]
        push_cast
        ring
    · rw [(ih (i + 1) _).2.2.2]
      dsimp only
      simp only [matchWeight, Bool.false_eq_true, if_false, List.length_cons]
      push_cast
      ring

/-- Claim C10: on a non-empty selection `calculate_team_form` returns `wins`,
`draws` and `losses` as weight-normalised fractions that sum exactly to 1 —
with recency weighting disabled they equal count/matches_played — while a
zero-match selection yields the fixed all-zero baseline record. -/
theorem team_form_normalized (history : List FMatch) (team_id before_date last_n : ℕ)
    (venue : Venue) (w : Bool) :
    (recentMatches history team_id before_date last_n venue ≠ [] →
      (calculate_team_form history team_id before_date last_n venue w).wins +
          (calculate_team_form history team_id before_date last_n venue w).draws +
          (calculate_team_form history team_id before_date last_n venue w).losses = 1 ∧
        (calculate_team_form history team_id before_date last_n venue w).matches_played =
          (recentMatches history team_id before_date last_n venue).length ∧
        (w = false →
          (calculate_team_form history team_id before_date last_n venue w).wins =
              (((recentMatches history team_id before_date last_n venue).filter
                  (winPred team_id)).length : ℚ) /
                ((recentMatches history team_id before_date last_n venue).length : ℚ) ∧
            (calculate_team_form history team_id before_date last_n venue w).draws =
              (((recentMatches history team_id before_date last_n venue).filter
                  (drawPred team_id)).length : ℚ) /
                ((recentMatches history team_id before_date last_n venue).length : ℚ) ∧
            (calculate_team_form history team_id before_date last_n venue w).losses =
              (((recentMatches history team_id before_date last_n venue).filter
                  (lossPred team_id)).length : ℚ) /
                ((recentMatches history team_id before_date last_n venue).length : ℚ))) ∧
    (recentMatches history team_id before_date last_n venue = [] →
      calculate_team_form history team_id before_date last_n venue w = emptyForm) := by
  constructor
  · intro hne
    rcases List.exists_cons_of_ne_nil hne with ⟨m, rest, hcons⟩
    have hpos : 0 < (formLoop team_id w
        (recentMatches history team_id before_date last_n venue) 0 formAccZero).total_weight := by
      rw [hcons]
      exact formLoop_weight_pos team_id w m rest 0 formAccZero le_rfl
    have hb := formLoop_buckets team_id w
      (recentMatches history team_id before_date last_n venue) 0 formAccZero
    rw [show formAccZero.wins_weighted + formAccZero.draws_weighted +
        formAccZero.losses_weighted - formAccZero.total_weight = 0 from by
      norm_num [formAccZero]] at hb
    refine ⟨?_, ?_, ?_⟩
    · unfold calculate_team_form
      rw [if_neg hne]
      dsimp only
      rw [if_pos hpos, if_pos hpos, if_pos hpos, div_add_div_same, div_add_div_same]
      rw [show (formLoop team_id w (recentMatches history team_id before_date last_n venue)
            0 formAccZero).wins_weighted +
          (formLoop team_id w (recentMatches history team_id before_date last_n venue)
            0 formAccZero).draws_weighted +
          (formLoop team_id w (recentMatches history team_id before_date last_n venue)
            0 formAccZero).losses_weighted =
          (formLoop team_id w (recentMatches history team_id before_date last_n venue)
            0 formAccZero).total_weight by linarith]
      exact div_self (ne_of_gt hpos)
    · unfold calculate_team_form
      rw [if_neg hne]
    · intro hw
      subst hw
      obtain ⟨h1, h2, h3, h4⟩ := formLoop_unweighted team_id
        (recentMatches history team_id before_date last_n venue) 0 formAccZero
      rw [show formAccZero.wins_weighted = (0 : ℚ) from rfl, zero_add] at h1
      rw [show formAccZero.draws_weighted = (0 : ℚ) from rfl, zero_add] at h2
      rw [show formAccZero.losses_weighted = (0 : ℚ) from rfl, zero_add] at h3
      rw [show formAccZero.total_weight = (0 : ℚ) from rfl, zero_add] at h4
      unfold calculate_team_form
      rw [if_neg hne]
      dsimp only
      exact ⟨by rw [if_pos hpos, h1, h4], by rw [if_pos hpos, h2, h4],
        by rw [if_pos hpos, h3, h4]⟩
  · intro he
    unfold calculate_team_form
    rw [if_pos he]

def c10hist : List FMatch :=
  [{ league_id := 1, home_team_id := 1, away_team_id := 2, match_date := 5,
     status := statusFT, home_goals := some 2, away_goals := some 0 },
   { league_id := 1, home_team_id := 2, away_team_id := 1, match_date := 8,
     status := statusFT, home_goals := some 1, away_goals := some 1 }]

/-- Claim C10 witness: a concrete two-match history has a non-empty selection and
its weighted win/draw/loss fractions sum to 1. -/
theorem team_form_normalized_witness :
    recentMatches c10hist 1 100 5 Venue.all ≠ [] ∧
    (calculate_team_form c10hist 1 100 5 Venue.all true).wins +
      (calculate_team_form c10hist 1 100 5 Venue.all true).draws +
      (calculate_team_form c10hist 1 100 5 Venue.all true).losses = 1 :=
  ⟨by decide, ((team_form_normalized c10hist 1 100 5 Venue.all true).1 (by decide)).1⟩

/-! ### Claim C7 — missing team versus empty history -/

theorem venueSelects_eq_false (venue : Venue) (t : ℕ) (m : FMatch)
    (h1 : m.home_team_id ≠ t) (h2 : m.away_team_id ≠ t) :
    venueSelects venue t m = false := by
  cases venue <;> simp [venueSelects, h1, h2]

/-- A team appearing in no match has an empty `calculate_team_form` selection. -/
theorem recentMatches_missing_team (history : List FMatch) (t : ℕ)
    (ht : ∀ m ∈ history, m.home_team_id ≠ t ∧ m.away_team_id ≠ t)
    (before_date last_n : ℕ) (venue : Venue) :
    recentMatches history t before_date last_n venue = [] := by
  unfold recentMatches
  have hf : history.filter (fun m =>
      decide (m.match_date < before_date) && decide (m.status = statusFT) &&
        venueSelects venue t m) = [] := by
    rw [List.filter_eq_nil_iff]
    intro m hm
    rw [venueSelects_eq_false venue t m (ht m hm).1 (ht m hm).2]
    simp
  rw [hf]
  rw [show List.insertionSort (fun m1 m2 => m2.match_date ≤ m1.match_date)
      ([] : List FMatch) = [] from rfl]
  exact List.take_nil

/-- A key of the standings dict comes from a home or away slot of a selected
match. -/
theorem standingsTeams_mem (x : ℕ) (ms : List FMatch) :
    ∀ acc : List ℕ,
      x ∈ ms.foldl (fun acc m =>
          standingsInsert (standingsInsert acc m.home_team_id) m.away_team_id) acc →
      x ∈ acc ∨ ∃ m ∈ ms, m.home_team_id = x ∨ m.away_team_id = x := by
  induction ms with
  | nil => intro acc hx; exact Or.inl hx
  | cons m rest ih =>
    intro acc hx
    rcases ih _ hx with hacc | ⟨m2, hm2, hor⟩
    · have hins : ∀ (l : List ℕ) (t : ℕ), x ∈ standingsInsert l t → x ∈ l ∨ x = t := by
        intro l t hmem
        unfold standingsInsert at hmem
        by_cases hin : t ∈ l
        · rw [if_pos hin] at hmem; exact Or.inl hmem
        · rw [if_neg hin] at hmem
          rcases List.mem_append.mp hmem with h | h
          · exact Or.inl h
          · exact Or.inr (List.mem_singleton.mp h)
      rcases hins _ _ hacc with h1 | h1
      · rcases hins _ _ h1 with h2 | h2
        · exact Or.inl h2
        · exact Or.inr ⟨m, List.mem_cons_self m rest, Or.inl h2.symm⟩
      · exact Or.inr ⟨m, List.mem_cons_self m rest, Or.inr h1.symm⟩
    · exact Or.inr ⟨m2, List.mem_cons_of_mem m hm2, hor⟩

/-- Claim C7 amended: a team id unknown to the match history is not reported as an
error — every statistics-cache query silently resolves it exactly like an
empty history: the all-zero form baseline, the zero head-to-head record, and
the default league position (10 with no league matches, half the table
otherwise). -/
theorem missing_team_resolved_as_baseline (history : List FMatch) (t : ℕ)
    (ht : ∀ m ∈ history, m.home_team_id ≠ t ∧ m.away_team_id ≠ t)
    (other before_date last_n league_id : ℕ) (venue : Venue) (w : Bool) :
    calculate_team_form history t before_date last_n venue w = emptyForm ∧
    get_h2h_record history t other before_date last_n = emptyH2H ∧
    calculate_league_position history t league_id before_date =
      (if leagueMatchesBefore history league_id before_date = [] then 10
       else (standingsTeams (leagueMatchesBefore history league_id before_date)).length / 2) := by
  refine ⟨?_, ?_, ?_⟩
  · unfold calculate_team_form
    rw [if_pos (recentMatches_missing_team history t ht before_date last_n venue)]
  · unfold get_h2h_record
    have hf : history.filter (fun m =>
        decide (m.match_date < before_date) && decide (m.status = statusFT) &&
          ((decide (m.home_team_id = t) && decide (m.away_team_id = other)) ||
           (decide (m.home_team_id = other) && decide (m.away_team_id = t)))) = [] := by
      rw [List.filter_eq_nil_iff]
      intro m hm
      simp [(ht m hm).1, (ht m hm).2]
    rw [hf]
    rw [show List.insertionSort (fun m1 m2 => m2.match_date ≤ m1.match_date)
        ([] : List FMatch) = [] from rfl]
    simp
  · unfold calculate_league_position
    by_cases hlm : leagueMatchesBefore history league_id before_date = []
    · rw [if_pos hlm, if_pos hlm]
    · rw [if_neg hlm, if_neg hlm]
      have hmem : t ∉ sortedStandings (leagueMatchesBefore history league_id before_date) := by
        intro hmem
        have hmem2 : t ∈ standingsTeams (leagueMatchesBefore history league_id before_date) :=
          ((List.perm_insertionSort _ _).mem_iff).mp hmem
        rcases standingsTeams_mem t (leagueMatchesBefore history league_id before_date) []
            hmem2 with h | ⟨m, hm, hor⟩
        · exact absurd h (List.not_mem_nil t)
        · have hm2 := ht m (List.mem_of_mem_filter hm)
          rcases hor with h | h
          · exact hm2.1 h
          · exact hm2.2 h
      have hnone : (sortedStandings (leagueMatchesBefore history league_id
          before_date)).findIdx? (fun x => decide (x = t)) = none := by
        rw [List.findIdx?_eq_none_iff]
        intro x hx
        simp only [decide_eq_false_iff_not]
        intro heq
        exact hmem (heq ▸ hx)
      rw [hnone]
      show (sortedStandings (leagueMatchesBefore history league_id before_date)).length / 2 = _
      unfold sortedStandings
      rw [(List.perm_insertionSort _ _).length_eq]

/-- Claim C7 amended witness: a concrete history not mentioning team 99
resolves every query for it to the neutral baseline. -/
theorem missing_team_resolved_as_baseline_witness :
    (∀ m ∈ c7hist, m.home_team_id ≠ 99 ∧ m.away_team_id ≠ 99) ∧
    calculate_team_form c7hist 99 20 5 Venue.home true = emptyForm :=
  ⟨by decide,
    (missing_team_resolved_as_baseline c7hist 99 (by decide) 3 20 5 1 Venue.home true).1⟩

/-! ### Claim C8 — Elo zero-sum -/

/-- Sum of the stored ratings over the teams the calculator knows. -/
noncomputable def ratingsSum (s : EloState) : ℝ := ∑ t ∈ s.dom, s.ratingF t

theorem get_expected_score_sum (s : EloState) (he ae : ℝ) :
    (get_expected_score s he ae).1 + (get_expected_score s he ae).2 = 1 := by
  unfold get_expected_score
  ring

theorem get_actual_score_sum (hg ag : ℕ) :
    (get_actual_score hg ag).1 + (get_actual_score hg ag).2 = 1 := by
  unfold get_actual_score
  rcases Nat.lt_trichotomy hg ag with h | h | h
  · rw [if_neg (by omega), if_pos h]; norm_num
  · rw [if_neg (by omega), if_neg (by omega)]; norm_num
  · rw [if_pos h]; norm_num

/-- The pair returned by `update_ratings` preserves the combined rating of the
two teams exactly. -/
theorem update_ratings_pair_sum (s : EloState) (mt : EloMatch) :
    (update_ratings s mt).2.1 + (update_ratings s mt).2.2 =
      get_rating s mt.home_team_id + get_rating s mt.away_team_id := by
  have h1 := get_expected_score_sum s (get_rating s mt.home_team_id)
    (get_rating s mt.away_team_id)
  have h2 := get_actual_score_sum mt.home_goals mt.away_goals
  unfold update_ratings
  dsimp only
  linear_combination s.k_factor * h2 - s.k_factor * h1

/-- One update preserves the invariant `ratingsSum = INITIAL_ELO · #teams`
(for a match between two distinct teams). -/
theorem update_ratings_sum_invariant (s : EloState) (mt : EloMatch)
    (hne : mt.home_team_id ≠ mt.away_team_id)
    (hinv : ratingsSum s = INITIAL_ELO * s.dom.card) :
    ratingsSum (update_ratings s mt).1 =
      INITIAL_ELO * ((update_ratings s mt).1.dom.card : ℕ) := by
  have hpair := update_ratings_pair_sum s mt
  set h0 := mt.home_team_id with hh0
  set a0 := mt.away_team_id with ha0
  set nh := (update_ratings s mt).2.1 with hnh
  set na := (update_ratings s mt).2.2 with hna
  have hstate : (update_ratings s mt).1.dom = insert a0 (insert h0 s.dom) ∧
      (update_ratings s mt).1.ratingF =
        Function.update (Function.update s.ratingF h0 nh) a0 na := by
    constructor <;> rfl
  have hS : ratingsSum (update_ratings s mt).1 =
      ∑ t ∈ insert a0 (insert h0 s.dom),
        Function.update (Function.update s.ratingF h0 nh) a0 na t := by
    unfold ratingsSum
    rw [hstate.1, hstate.2]
  have hmema : a0 ∈ insert a0 (insert h0 s.dom) := Finset.mem_insert_self _ _
  rw [hS, hstate.1, Finset.sum_update_of_mem hmema, Finset.sdiff_singleton_eq_erase,
    Finset.erase_insert_eq_erase]
  have hmemh : h0 ∈ (insert h0 s.dom).erase a0 :=
    Finset.mem_erase.mpr ⟨hne, Finset.mem_insert_self _ _⟩
  rw [Finset.sum_update_of_mem hmemh, Finset.sdiff_singleton_eq_erase,
    Finset.erase_right_comm, Finset.erase_insert_eq_erase]
  have hE : ((s.dom.erase h0).erase a0 : Finset ℕ) = (s.dom.erase a0).erase h0 :=
    Finset.erase_right_comm
  by_cases hh : h0 ∈ s.dom <;> by_cases haa : a0 ∈ s.dom
  · have e1 : ∑ t ∈ s.dom.erase h0, s.ratingF t + s.ratingF h0 = ∑ t ∈ s.dom, s.ratingF t :=
      Finset.sum_erase_add _ _ hh
    have e2 : ∑ t ∈ (s.dom.erase h0).erase a0, s.ratingF t + s.ratingF a0 =
        ∑ t ∈ s.dom.erase h0, s.ratingF t :=
      Finset.sum_erase_add _ _ (Finset.mem_erase.mpr ⟨Ne.symm hne, haa⟩)
    have hcard : (insert a0 (insert h0 s.dom)).card = s.dom.card := by
      rw [Finset.insert_eq_self.mpr hh, Finset.insert_eq_self.mpr haa]
    rw [hcard]
    have hget : get_rating s h0 + get_rating s a0 = s.ratingF h0 + s.ratingF a0 := by
      unfold get_rating
      rw [if_pos hh, if_pos haa]
    unfold ratingsSum at hinv
    linarith [hpair, hinv, e1, e2, hget]
  · have e1 : ∑ t ∈ s.dom.erase h0, s.ratingF t + s.ratingF h0 = ∑ t ∈ s.dom, s.ratingF t :=
      Finset.sum_erase_add _ _ hh
    have e2 : ((s.dom.erase h0).erase a0 : Finset ℕ) = s.dom.erase h0 :=
      Finset.erase_eq_of_not_mem (by
        intro hcon
        exact haa (Finset.mem_erase.mp hcon).2)
    have hcard : (insert a0 (insert h0 s.dom)).card = s.dom.card + 1 := by
      rw [Finset.insert_eq_self.mpr hh]
      exact Finset.card_insert_of_not_mem haa
    have hget : get_rating s h0 + get_rating s a0 = s.ratingF h0 + INITIAL_ELO := by
      unfold get_rating
      rw [if_pos hh, if_neg haa]
    unfold ratingsSum at hinv
    rw [e2, hcard]
    push_cast
    linarith [hpair, hinv, e1, hget]
  · have e2 : ((s.dom.erase h0).erase a0 : Finset ℕ) = s.dom.erase a0 := by
      rw [Finset.erase_eq_of_not_mem hh]
    have e1 : ∑ t ∈ s.dom.erase a0, s.ratingF t + s.ratingF a0 = ∑ t ∈ s.dom, s.ratingF t :=
      Finset.sum_erase_add _ _ haa
    have hcard : (insert a0 (insert h0 s.dom)).card = s.dom.card + 1 := by
      rw [Finset.insert_eq_self.mpr (Finset.mem_insert_of_mem haa)]
      exact Finset.card_insert_of_not_mem hh
    have hget : get_rating s h0 + get_rating s a0 = INITIAL_ELO + s.ratingF a0 := by
      unfold get_rating
      rw [if_neg hh, if_pos haa]
    unfold ratingsSum at hinv
    rw [e2, hcard]
    push_cast
    linarith [hpair, hinv, e1, hget]
  · have e2 : ((s.dom.erase h0).erase a0 : Finset ℕ) = s.dom := by
      rw [Finset.erase_eq_of_not_mem hh, Finset.erase_eq_of_not_mem haa]
    have hcard : (insert a0 (insert h0 s.dom)).card = s.dom.card + 2 := by
      have hnotmem : a0 ∉ insert h0 s.dom := by
        intro hcon
        rcases Finset.mem_insert.mp hcon with h | h
        · exact hne h.symm
        · exact haa h
      rw [Finset.card_insert_of_not_mem hnotmem, Finset.card_insert_of_not_mem hh]
    have hget : get_rating s h0 + get_rating s a0 = INITIAL_ELO + INITIAL_ELO := by
      unfold get_rating
      rw [if_neg hh, if_neg haa]
    unfold ratingsSum at hinv
    rw [e2, hcard]
    push_cast
    linarith [hpair, hinv, hget]

/-- The invariant carries through a whole chronological replay. -/
theorem replay_sum_invariant (ms : List EloMatch)
    (hms : ∀ m ∈ ms, m.home_team_id ≠ m.away_team_id) :
    ∀ s : EloState, ratingsSum s = INITIAL_ELO * s.dom.card →
      ratingsSum (replayMatches s ms) =
        INITIAL_ELO * ((replayMatches s ms).dom.card : ℕ) := by
  induction ms with
  | nil => intro s hs; exact hs
  | cons m rest ih =>
    intro s hs
    rw [replayMatches]
    exact ih (fun x hx => hms x (List.mem_cons_of_mem m hx)) _
      (update_ratings_sum_invariant s m (hms m (List.mem_cons_self m rest)) hs)

/-- Claim C8: every `update_ratings` call is zero-sum — the returned pair preserves
the combined rating of the two teams exactly, because the actual scores sum to 1 and
the expected scores sum to 1 — and consequently, after `calculate_all_ratings`
over matches between distinct teams, the stored ratings sum to `INITIAL_ELO`
times the number of distinct teams seen. -/
theorem elo_update_zero_sum (s : EloState) (mt : EloMatch) (k hadv : ℝ)
    (ms : List EloMatch) (hms : ∀ m ∈ ms, m.home_team_id ≠ m.away_team_id) :
    (update_ratings s mt).2.1 + (update_ratings s mt).2.2 =
        get_rating s mt.home_team_id + get_rating s mt.away_team_id ∧
      (get_actual_score mt.home_goals mt.away_goals).1 +
        (get_actual_score mt.home_goals mt.away_goals).2 = 1 ∧
      (get_expected_score s (get_rating s mt.home_team_id)
          (get_rating s mt.away_team_id)).1 +
        (get_expected_score s (get_rating s mt.home_team_id)
          (get_rating s mt.away_team_id)).2 = 1 ∧
      ratingsSum (calculate_all_ratings k hadv ms) =
        INITIAL_ELO * ((calculate_all_ratings k hadv ms).dom.card : ℕ) := by
  refine ⟨update_ratings_pair_sum s mt, get_actual_score_sum _ _,
    get_expected_score_sum _ _ _, ?_⟩
  apply replay_sum_invariant ms hms
  unfold ratingsSum initEloState
  simp

def c8ms : List EloMatch :=
  [{ home_team_id := 1, away_team_id := 2, home_goals := 2, away_goals := 1,
     match_date := 5 },
   { home_team_id := 2, away_team_id := 3, home_goals := 0, away_goals := 0,
     match_date := 8 }]

/-- Claim C8 witness: on a concrete two-match history between distinct teams the
stored ratings sum to `INITIAL_ELO` times the number of teams. -/
theorem elo_update_zero_sum_witness :
    (∀ m ∈ c8ms, m.home_team_id ≠ m.away_team_id) ∧
    ratingsSum (calculate_all_ratings 32 100 c8ms) =
      INITIAL_ELO * ((calculate_all_ratings 32 100 c8ms).dom.card : ℕ) :=
  ⟨by decide,
    (elo_update_zero_sum (initEloState 32 100)
      { home_team_id := 1, away_team_id := 2, home_goals := 2, away_goals := 1,
        match_date := 5 } 32 100 c8ms (by decide)).2.2.2⟩

/-! ### Claim C4 — rating-as-of-date point-in-time semantics -/

/-- The history scan stops at the first entry dated `≥ target`, so a suffix of
such entries is invisible to it. -/
theorem ratingScan_append_ge (d : ℕ) (tail : List (ℕ × ℝ))
    (htail : ∀ e ∈ tail, d ≤ e.1) :
    ∀ (hist : List (ℕ × ℝ)) (r : ℝ), ratingScan d (hist ++ tail) r = ratingScan d hist r
  | [], r => by
    cases tail with
    | nil => rfl
    | cons e rest =>
      have he := htail e (List.mem_cons_self e rest)
      simp only [List.nil_append, ratingScan]
      rw [if_neg (by omega)]
  | e :: hist, r => by
    simp only [List.cons_append, ratingScan]
    by_cases hd : e.1 < d
    · rw [if_pos hd, if_pos hd]
      exact ratingScan_append_ge d tail htail hist e.2
    · rw [if_neg hd, if_neg hd]

/-- On a history dated entirely before the target, the scan returns the last
recorded value (or the initial constant on an empty history). -/
theorem ratingScan_all_lt (d : ℕ) :
    ∀ (hist : List (ℕ × ℝ)) (r : ℝ), (∀ e ∈ hist, e.1 < d) →
      ratingScan d hist r = hist.getLast?.elim r Prod.snd
  | [], r, _ => rfl
  | e :: hist, r, hlt => by
    rw [ratingScan, if_pos (hlt e (List.mem_cons_self e hist))]
    rw [ratingScan_all_lt d hist e.2 (fun x hx => hlt x (List.mem_cons_of_mem e hx))]
    cases hist with
    | nil => rfl
    | cons x xs =>
      rw [List.getLast?_cons_cons]
      cases hxs : (x :: xs).getLast? with
      | none => exact absurd hxs (by simp)
      | some v => rfl

/-- Replaying appends to the history of a team only entries dated by the replayed
matches. -/
theorem replay_history_tail (ms : List EloMatch) :
    ∀ (s : EloState) (t : ℕ), ∃ tail,
      (replayMatches s ms).historyF t = s.historyF t ++ tail ∧
        ∀ e ∈ tail, ∃ m ∈ ms, e.1 = m.match_date := by
  induction ms with
  | nil => intro s t; exact ⟨[], by simp [replayMatches], by simp⟩
  | cons m rest ih =>
    intro s t
    obtain ⟨tail1, h1, h2⟩ := ih (update_ratings s m).1 t
    refine ⟨((if t = m.home_team_id then [(m.match_date, (update_ratings s m).2.1)] else []) ++
        (if t = m.away_team_id then [(m.match_date, (update_ratings s m).2.2)] else [])) ++
        tail1, ?_, ?_⟩
    · have hupd : (update_ratings s m).1.historyF t =
          (s.historyF t ++
            (if t = m.home_team_id then [(m.match_date, (update_ratings s m).2.1)] else [])) ++
            (if t = m.away_team_id then [(m.match_date, (update_ratings s m).2.2)] else []) := rfl
      rw [replayMatches, h1, hupd]
      simp only [List.append_assoc]
    · intro e he
      rcases List.mem_append.mp he with he1 | he1
      · refine ⟨m, List.mem_cons_self m rest, ?_⟩
        rcases List.mem_append.mp he1 with he2 | he2 <;>
        · by_cases hcase : t = m.home_team_id <;> by_cases hcase2 : t = m.away_team_id <;>
            simp [hcase, hcase2] at he2 <;> simp [he2]
      · obtain ⟨m2, hm2, he2⟩ := h2 e he1
        exact ⟨m2, List.mem_cons_of_mem m hm2, he2⟩

/-- In a list sorted by date, filtering strictly-before a cutoff is taking the
initial segment. -/
theorem filter_before_eq_takeWhile (d : ℕ) :
    ∀ ms : List EloMatch,
      List.Pairwise (fun m1 m2 => m1.match_date ≤ m2.match_date) ms →
      ms.filter (fun m => decide (m.match_date < d)) =
        ms.takeWhile (fun m => decide (m.match_date < d))
  | [], _ => rfl
  | m :: rest, hp => by
    have hrest := (List.pairwise_cons.mp hp).2
    have hhead := (List.pairwise_cons.mp hp).1
    by_cases hd : m.match_date < d
    · rw [List.filter_cons_of_pos (by simpa using hd),
        List.takeWhile_cons_of_pos (by simpa using hd)]
      rw [filter_before_eq_takeWhile d rest hrest]
    · rw [List.filter_cons_of_neg (by simpa using hd),
        List.takeWhile_cons_of_neg (by simpa using hd)]
      rw [List.filter_eq_nil_iff.mpr]
      intro x hx
      simp only [decide_eq_true_eq]
      have := hhead x hx
      omega

/-- In a list sorted by date, everything dropped by the cutoff is dated at or
after it. -/
theorem dropWhile_ge_date (d : ℕ) :
    ∀ ms : List EloMatch,
      List.Pairwise (fun m1 m2 => m1.match_date ≤ m2.match_date) ms →
      ∀ m ∈ ms.dropWhile (fun m => decide (m.match_date < d)), d ≤ m.match_date
  | [], _ => by intro m hm; simp at hm
  | m :: rest, hp => by
    have hrest := (List.pairwise_cons.mp hp).2
    have hhead := (List.pairwise_cons.mp hp).1
    intro x hx
    by_cases hd : m.match_date < d
    · rw [List.dropWhile_cons_of_pos (by simpa using hd)] at hx
      exact dropWhile_ge_date d rest hrest x hx
    · rw [List.dropWhile_cons_of_neg (by simpa using hd)] at hx
      rcases List.mem_cons.mp hx with h | h
      · subst h; omega
      · have := hhead x h; omega

/-- Replay distributes over concatenation. -/
theorem replayMatches_append (s : EloState) (ms1 ms2 : List EloMatch) :
    replayMatches s (ms1 ++ ms2) = replayMatches (replayMatches s ms1) ms2 := by
  induction ms1 generalizing s with
  | nil => rfl
  | cons m rest ih =>
    rw [List.cons_append, replayMatches, replayMatches, ih]

/-- Claim C4: after `calculate_all_ratings` replays a chronologically ordered
history, `get_rating_at_date` is deterministic (two queries of the same date
on the same state are identical), is independent of every match dated `≥ d`
(it agrees with the replay of only the matches strictly before `d`), and
returns the rating recorded by the last match of the team strictly before `d`, or
`INITIAL_ELO` when no such match exists. -/
theorem get_rating_at_date_point_in_time (k hadv : ℝ) (ms : List EloMatch)
    (hsort : List.Pairwise (fun m1 m2 => m1.match_date ≤ m2.match_date) ms)
    (t d : ℕ) :
    get_rating_at_date (calculate_all_ratings k hadv ms) t d =
        get_rating_at_date (calculate_all_ratings k hadv ms) t d ∧
      get_rating_at_date (calculate_all_ratings k hadv ms) t d =
        get_rating_at_date (calculate_all_ratings k hadv
          (ms.filter (fun m => decide (m.match_date < d)))) t d ∧
      get_rating_at_date (calculate_all_ratings k hadv
          (ms.filter (fun m => decide (m.match_date < d)))) t d =
        ((calculate_all_ratings k hadv
            (ms.filter (fun m => decide (m.match_date < d)))).historyF t).getLast?.elim
          INITIAL_ELO Prod.snd := by
  refine ⟨rfl, ?_, ?_⟩
  · have htk := filter_before_eq_takeWhile d ms hsort
    have hsplit := List.takeWhile_append_dropWhile (fun m => decide (m.match_date < d)) ms
    unfold get_rating_at_date calculate_all_ratings
    rw [htk]
    conv_lhs => rw [← hsplit]
    rw [replayMatches_append]
    obtain ⟨tail, htail1, htail2⟩ := replay_history_tail
      (ms.dropWhile (fun m => decide (m.match_date < d)))
      (replayMatches (initEloState k hadv) (ms.takeWhile (fun m => decide (m.match_date < d)))) t
    rw [htail1]
    exact ratingScan_append_ge d tail (fun e he => by
      obtain ⟨m2, hm2, he2⟩ := htail2 e he
      rw [he2]
      exact dropWhile_ge_date d ms hsort m2 hm2) _ INITIAL_ELO
  · unfold get_rating_at_date calculate_all_ratings
    obtain ⟨tail, htail1, htail2⟩ := replay_history_tail
      (ms.filter (fun m => decide (m.match_date < d))) (initEloState k hadv) t
    have hbase : (initEloState k hadv).historyF t = [] := rfl
    rw [htail1, hbase, List.nil_append]
    apply ratingScan_all_lt
    intro e he
    obtain ⟨m2, hm2, he2⟩ := htail2 e he
    rw [he2]
    have hmf := List.mem_filter.mp hm2
    simpa using hmf.2

def c4ms : List EloMatch :=
  [{ home_team_id := 1, away_team_id := 2, home_goals := 2, away_goals := 0,
     match_date := 5 },
   { home_team_id := 2, away_team_id := 1, home_goals := 1, away_goals := 1,
     match_date := 8 }]

/-- Claim C4 witness: on a concrete sorted two-match history, the rating as of date
8 ignores the match played on date 8. -/
theorem get_rating_at_date_point_in_time_witness :
    List.Pairwise (fun m1 m2 => m1.match_date ≤ m2.match_date) c4ms ∧
    get_rating_at_date (calculate_all_ratings 32 100 c4ms) 1 8 =
      get_rating_at_date (calculate_all_ratings 32 100
        (c4ms.filter (fun m => decide (m.match_date < 8)))) 1 8 :=
  ⟨by decide, (get_rating_at_date_point_in_time 32 100 c4ms (by decide) 1 8).2.1⟩

/-! ### Claims C1, C9, C2 — Poisson scoreline model -/

theorem get_expected_goals_bounds (m : PoissonModel) (h a : ℕ) :
    (0.3 : ℝ) ≤ (get_expected_goals m h a).1 ∧ (get_expected_goals m h a).1 ≤ (4.0 : ℝ) ∧
      (0.3 : ℝ) ≤ (get_expected_goals m h a).2 ∧ (get_expected_goals m h a).2 ≤ (3.5 : ℝ) := by
  unfold get_expected_goals
  dsimp only
  exact ⟨le_max_left _ _, max_le (by norm_num) (min_le_left _ _),
    le_max_left _ _, max_le (by norm_num) (min_le_left _ _)⟩

theorem poisson_pmf_pos (lam : ℝ) (hlam : 0 < lam) (k : ℕ) : 0 < poisson_pmf lam k := by
  unfold poisson_pmf
  apply div_pos (mul_pos (Real.exp_pos _) (pow_pos hlam k))
  exact_mod_cast Nat.factorial_pos k

theorem dixon_coles_ge_one (m : PoissonModel) (i j : ℕ) (lh la : ℝ)
    (hrho : m.rho ≤ 0) (hlh : 0 < lh) (hla : 0 < la) :
    1 ≤ dixon_coles_adjustment m i j lh la := by
  unfold dixon_coles_adjustment
  by_cases hij : i > 1 ∨ j > 1
  · rw [if_pos hij]
  · rw [if_neg hij]
    have hprod : lh * la * m.rho ≤ 0 :=
      mul_nonpos_of_nonneg_of_nonpos (le_of_lt (mul_pos hlh hla)) hrho
    linarith

/-- Under a non-positive ρ every unnormalised adjusted cell is strictly
positive. -/
theorem score_matrix_pos (m : PoissonModel) (h a : ℕ) (hrho : m.rho ≤ 0)
    (p : ℕ × ℕ) : 0 < score_matrix m h a p := by
  obtain ⟨hb1, -, hb3, -⟩ := get_expected_goals_bounds m h a
  have hlh : (0 : ℝ) < (get_expected_goals m h a).1 := by linarith
  have hla : (0 : ℝ) < (get_expected_goals m h a).2 := by linarith
  unfold score_matrix
  dsimp only
  have htau := dixon_coles_ge_one m p.1 p.2 _ _ hrho hlh hla
  apply mul_pos (mul_pos (poisson_pmf_pos _ hlh _) (poisson_pmf_pos _ hla _))
  linarith

theorem score_total_pos (m : PoissonModel) (h a : ℕ) (hrho : m.rho ≤ 0) :
    0 < ∑ p ∈ scoreGrid, score_matrix m h a p :=
  Finset.sum_pos (fun p _ => score_matrix_pos m h a hrho p) ⟨(0, 0), by decide⟩

/-- With positive total mass the guard in `predict_score_probabilities`
normalises. -/
theorem predict_score_probabilities_eq (m : PoissonModel) (h a : ℕ)
    (hrho : m.rho ≤ 0) :
    predict_score_probabilities m h a =
      fun p => score_matrix m h a p / ∑ q ∈ scoreGrid, score_matrix m h a q := by
  unfold predict_score_probabilities
  rw [if_pos (score_total_pos m h a hrho)]

theorem predict_score_probabilities_sum (m : PoissonModel) (h a : ℕ)
    (hrho : m.rho ≤ 0) :
    ∑ p ∈ scoreGrid, predict_score_probabilities m h a p = 1 := by
  rw [predict_score_probabilities_eq m h a hrho, ← Finset.sum_div]
  exact div_self (ne_of_gt (score_total_pos m h a hrho))

theorem predict_score_probabilities_nonneg (m : PoissonModel) (h a : ℕ)
    (hrho : m.rho ≤ 0) (p : ℕ × ℕ) :
    0 ≤ predict_score_probabilities m h a p := by
  rw [predict_score_probabilities_eq m h a hrho]
  exact le_of_lt (div_pos (score_matrix_pos m h a hrho p) (score_total_pos m h a hrho))

/-- The defensive renormalisation in `predict_match` never fires: the matrix
already sums to 1 exactly. -/
theorem match_score_dist_eq (m : PoissonModel) (h a : ℕ) (hrho : m.rho ≤ 0) :
    match_score_dist m h a = predict_score_probabilities m h a := by
  unfold match_score_dist
  dsimp only
  rw [predict_score_probabilities_sum m h a hrho]
  rw [if_neg (by norm_num)]

theorem match_score_dist_sum (m : PoissonModel) (h a : ℕ) (hrho : m.rho ≤ 0) :
    ∑ p ∈ scoreGrid, match_score_dist m h a p = 1 := by
  rw [match_score_dist_eq m h a hrho]
  exact predict_score_probabilities_sum m h a hrho

theorem match_score_dist_nonneg (m : PoissonModel) (h a : ℕ) (hrho : m.rho ≤ 0)
    (p : ℕ × ℕ) : 0 ≤ match_score_dist m h a p := by
  rw [match_score_dist_eq m h a hrho]
  exact predict_score_probabilities_nonneg m h a hrho p

/-- Claim C1: for every pair of team ids and every model state with the fixed
non-positive correlation parameter, the 1X2 probabilities of `predict_match`
are each non-negative and sum to exactly 1, because each cell of the
normalised score matrix is classified as exactly one of home win, draw or away
win. -/
theorem predict_match_1x2_normalized (m : PoissonModel) (h a : ℕ)
    (hrho : m.rho ≤ 0) :
    0 ≤ prob_home m h a ∧ 0 ≤ prob_draw m h a ∧ 0 ≤ prob_away m h a ∧
      prob_home m h a + prob_draw m h a + prob_away m h a = 1 := by
  refine ⟨by
      unfold prob_home marketSum
      exact Finset.sum_nonneg (fun p _ => match_score_dist_nonneg m h a hrho p), by
      unfold prob_draw marketSum
      exact Finset.sum_nonneg (fun p _ => match_score_dist_nonneg m h a hrho p), by
      unfold prob_away marketSum
      exact Finset.sum_nonneg (fun p _ => match_score_dist_nonneg m h a hrho p), ?_⟩
  unfold prob_home prob_draw prob_away marketSum
  rw [Finset.sum_filter, Finset.sum_filter, Finset.sum_filter,
    ← Finset.sum_add_distrib, ← Finset.sum_add_distrib]
  rw [Finset.sum_congr rfl (fun p _ => ?_)]
  · exact match_score_dist_sum m h a hrho
  · unfold isHomeWin isDraw isAwayWin
    rcases Nat.lt_trichotomy p.1 p.2 with hc | hc | hc
    · rw [if_neg (by omega), if_neg (by omega), if_pos hc]
      ring
    · rw [if_neg (by omega), if_pos hc, if_neg (by omega)]
      ring
    · rw [if_pos hc, if_neg (by omega), if_neg (by omega)]
      ring

/-- A default-strength model with the class constants of `PoissonGoalModel`. -/
noncomputable def c1model : PoissonModel :=
  { league_avg_home_goals := 1.5, league_avg_away_goals := 1.2,
    team_attack := fun _ => 1, team_defense := fun _ => 1, rho := -0.13 }

/-- Claim C1 witness: the default model state with ρ = −0.13 has 1X2 probabilities
summing to 1 for fixture (1, 2). -/
theorem predict_match_1x2_normalized_witness :
    c1model.rho ≤ 0 ∧
    prob_home c1model 1 2 + prob_draw c1model 1 2 + prob_away c1model 1 2 = 1 :=
  ⟨by norm_num [c1model],
    (predict_match_1x2_normalized c1model 1 2 (by norm_num [c1model])).2.2.2⟩

/-- A combo market sums a subset of the non-negative cells of a marginal. -/
theorem marketSum_mono (m : PoissonModel) (h a : ℕ) (hrho : m.rho ≤ 0)
    (pred1 pred2 : ℕ × ℕ → Prop) [DecidablePred pred1] [DecidablePred pred2]
    (himp : ∀ p, pred1 p → pred2 p) :
    marketSum m h a pred1 ≤ marketSum m h a pred2 := by
  unfold marketSum
  apply Finset.sum_le_sum_of_subset_of_nonneg
  · exact Finset.monotone_filter_right scoreGrid himp
  · exact fun p _ _ => match_score_dist_nonneg m h a hrho p

/-- Claim C9: each combo-market probability of `predict_match` (before the 4-decimal
JSON rounding) is at most each of its component marginal probabilities, hence
at most their minimum, because each combo is a sub-sum of the same
non-negative normalised score matrix. -/
theorem combo_markets_below_marginals (m : PoissonModel) (h a : ℕ)
    (hrho : m.rho ≤ 0) :
    combo_1_over_25 m h a ≤ prob_home m h a ∧
      combo_1_over_25 m h a ≤ prob_over_25 m h a ∧
      combo_2_over_25 m h a ≤ prob_away m h a ∧
      combo_2_over_25 m h a ≤ prob_over_25 m h a ∧
      combo_x_under_25 m h a ≤ prob_draw m h a ∧
      combo_1_btts m h a ≤ prob_home m h a ∧
      combo_1_btts m h a ≤ prob_btts m h a ∧
      combo_2_btts m h a ≤ prob_away m h a ∧
      combo_2_btts m h a ≤ prob_btts m h a ∧
      combo_x_btts m h a ≤ prob_draw m h a ∧
      combo_x_btts m h a ≤ prob_btts m h a ∧
      combo_gg_over_25 m h a ≤ prob_btts m h a ∧
      combo_gg_over_25 m h a ≤ prob_over_25 m h a :=
  ⟨marketSum_mono m h a hrho _ _ (fun p hp => hp.1),
    marketSum_mono m h a hrho _ _ (fun p hp => hp.2),
    marketSum_mono m h a hrho _ _ (fun p hp => hp.1),
    marketSum_mono m h a hrho _ _ (fun p hp => hp.2),
    marketSum_mono m h a hrho _ _ (fun p hp => hp.1),
    marketSum_mono m h a hrho _ _ (fun p hp => hp.1),
    marketSum_mono m h a hrho _ _ (fun p hp => hp.2),
    marketSum_mono m h a hrho _ _ (fun p hp => hp.1),
    marketSum_mono m h a hrho _ _ (fun p hp => hp.2),
    marketSum_mono m h a hrho _ _ (fun p hp => hp.1),
    marketSum_mono m h a hrho _ _ (fun p hp => hp.2),
    marketSum_mono m h a hrho _ _ (fun p hp => hp.1),
    marketSum_mono m h a hrho _ _ (fun p hp => hp.2)⟩

/-- Another default-strength model with ρ = −0.13 for the C9 witness. -/
noncomputable def c9model : PoissonModel :=
  { league_avg_home_goals := 1.4, league_avg_away_goals := 1.1,
    team_attack := fun _ => 1, team_defense := fun _ => 1, rho := -0.13 }

/-- Claim C9 witness: for a concrete model state and fixture the home-and-over-2.5
combo does not exceed the home-win marginal. -/
theorem combo_markets_below_marginals_witness :
    c9model.rho ≤ 0 ∧ combo_1_over_25 c9model 3 4 ≤ prob_home c9model 3 4 :=
  ⟨by norm_num [c9model],
    (combo_markets_below_marginals c9model 3 4 (by norm_num [c9model])).1⟩

/-- A truncated Poisson distribution carries strictly less than full mass. -/
theorem poisson_pmf_partial_sum_lt_one (lam : ℝ) (hlam : 0 < lam) (n : ℕ) :
    ∑ k ∈ Finset.range n, poisson_pmf lam k < 1 := by
  have h1 : ∑ k ∈ Finset.range n, poisson_pmf lam k =
      Real.exp (-lam) * ∑ k ∈ Finset.range n, lam ^ k / (Nat.factorial k : ℝ) := by
    rw [Finset.mul_sum]
    exact Finset.sum_congr rfl (fun k _ => by unfold poisson_pmf; ring)
  have h2 : ∑ k ∈ Finset.range n, lam ^ k / (Nat.factorial k : ℝ) < Real.exp lam := by
    have h3 := Real.sum_le_exp_of_nonneg hlam.le (n + 1)
    rw [Finset.sum_range_succ] at h3
    have h4 : 0 < lam ^ n / (Nat.factorial n : ℝ) := by
      apply div_pos (pow_pos hlam n)
      exact_mod_cast Nat.factorial_pos n
    linarith
  rw [h1]
  calc Real.exp (-lam) * ∑ k ∈ Finset.range n, lam ^ k / (Nat.factorial k : ℝ)
      < Real.exp (-lam) * Real.exp lam := mul_lt_mul_of_pos_left h2 (Real.exp_pos _)
    _ = 1 := by rw [← Real.exp_add]; simp

/-- Grid sums of product cells factor into marginal sums. -/
theorem grid_sum_factor (f g : ℕ → ℝ) :
    ∑ p ∈ scoreGrid, f p.1 * g p.2 =
      (∑ i ∈ Finset.range (MAX_GOALS + 1), f i) *
        (∑ j ∈ Finset.range (MAX_GOALS + 1), g j) := by
  rw [Finset.sum_mul_sum, scoreGrid, Finset.sum_product]

/-- The model state driving the C2 scenario: neutral strengths and league
averages chosen so that `get_expected_goals` returns exactly (1.5, 1.2), with
ρ = −0.13. -/
noncomputable def c2model : PoissonModel :=
  { league_avg_home_goals := 1.25, league_avg_away_goals := 1.2,
    team_attack := fun _ => 1, team_defense := fun _ => 1, rho := -0.13 }

theorem c2model_lams : get_expected_goals c2model 1 2 = (3/2, 6/5) := by
  unfold get_expected_goals c2model POISSON_HOME_ADVANTAGE
  dsimp only
  rw [show (1 : ℝ) * 1 * 1.25 + 0.25 = 3/2 by norm_num,
    show (1 : ℝ) * 1 * 1.2 = 6/5 by norm_num]
  rw [min_eq_right (by norm_num), max_eq_right (by norm_num),
    min_eq_right (by norm_num), max_eq_right (by norm_num)]

/-- Claim C2: with ρ = −0.13, λ_home = 1.5 and λ_away = 1.2, the probability that
`predict_score_probabilities` assigns to scoreline 0-0 after the Dixon-Coles
adjustment and renormalisation is strictly greater than the unadjusted
independent-Poisson probability of 0-0. -/
theorem dixon_coles_inflates_0_0 :
    poisson_pmf (3/2) 0 * poisson_pmf (6/5) 0 <
      predict_score_probabilities c2model 1 2 (0, 0) := by
  have hrho : c2model.rho ≤ 0 := by norm_num [c2model]
  have hrhoval : c2model.rho = -(13/100 : ℝ) := by norm_num [c2model]
  set c : ℝ := 1 - 3/2 * (6/5) * c2model.rho with hc
  have hcgt : 1 < c := by rw [hc, hrhoval]; norm_num
  have hcell : ∀ p : ℕ × ℕ, score_matrix c2model 1 2 p =
      poisson_pmf (3/2) p.1 * poisson_pmf (6/5) p.2 *
        (if p.1 > 1 ∨ p.2 > 1 then 1 else c) := by
    intro p
    unfold score_matrix
    dsimp only
    rw [c2model_lams]
    unfold dixon_coles_adjustment
    rfl
  set S : ℝ := ∑ p ∈ scoreGrid, poisson_pmf (3/2) p.1 * poisson_pmf (6/5) p.2 with hS
  set L : ℝ := ∑ p ∈ scoreGrid.filter (fun p => ¬(p.1 > 1 ∨ p.2 > 1)),
    poisson_pmf (3/2) p.1 * poisson_pmf (6/5) p.2 with hL
  have hsplit := Finset.sum_filter_add_sum_filter_not scoreGrid
    (fun p => p.1 > 1 ∨ p.2 > 1)
    (fun p => poisson_pmf (3/2) p.1 * poisson_pmf (6/5) p.2)
  have hT : ∑ p ∈ scoreGrid, score_matrix c2model 1 2 p = S + (c - 1) * L := by
    calc ∑ p ∈ scoreGrid, score_matrix c2model 1 2 p
        = ∑ p ∈ scoreGrid, poisson_pmf (3/2) p.1 * poisson_pmf (6/5) p.2 *
            (if p.1 > 1 ∨ p.2 > 1 then 1 else c) :=
          Finset.sum_congr rfl (fun p _ => hcell p)
      _ = (∑ p ∈ scoreGrid.filter (fun p => p.1 > 1 ∨ p.2 > 1),
            poisson_pmf (3/2) p.1 * poisson_pmf (6/5) p.2 * 1) +
          ∑ p ∈ scoreGrid.filter (fun p => ¬(p.1 > 1 ∨ p.2 > 1)),
            poisson_pmf (3/2) p.1 * poisson_pmf (6/5) p.2 * c := by
          have ha : ∑ p ∈ scoreGrid.filter (fun p => p.1 > 1 ∨ p.2 > 1),
              poisson_pmf (3/2) p.1 * poisson_pmf (6/5) p.2 *
                (if p.1 > 1 ∨ p.2 > 1 then 1 else c) =
              ∑ p ∈ scoreGrid.filter (fun p => p.1 > 1 ∨ p.2 > 1),
                poisson_pmf (3/2) p.1 * poisson_pmf (6/5) p.2 * 1 :=
            Finset.sum_congr rfl
              (fun p hp => by rw [if_pos (Finset.mem_filter.mp hp).2])
          have hb : ∑ p ∈ scoreGrid.filter (fun p => ¬(p.1 > 1 ∨ p.2 > 1)),
              poisson_pmf (3/2) p.1 * poisson_pmf (6/5) p.2 *
                (if p.1 > 1 ∨ p.2 > 1 then 1 else c) =
              ∑ p ∈ scoreGrid.filter (fun p => ¬(p.1 > 1 ∨ p.2 > 1)),
                poisson_pmf (3/2) p.1 * poisson_pmf (6/5) p.2 * c :=
            Finset.sum_congr rfl
              (fun p hp => by rw [if_neg (Finset.mem_filter.mp hp).2])
          rw [← Finset.sum_filter_add_sum_filter_not scoreGrid
            (fun p => p.1 > 1 ∨ p.2 > 1)
            (fun p => poisson_pmf (3/2) p.1 * poisson_pmf (6/5) p.2 *
              (if p.1 > 1 ∨ p.2 > 1 then 1 else c)), ha, hb]
      _ = (S - L) + c * L := by
          have h5 : ∑ p ∈ scoreGrid.filter (fun p => p.1 > 1 ∨ p.2 > 1),
              poisson_pmf (3/2) p.1 * poisson_pmf (6/5) p.2 * 1 =
              ∑ p ∈ scoreGrid.filter (fun p => p.1 > 1 ∨ p.2 > 1),
                poisson_pmf (3/2) p.1 * poisson_pmf (6/5) p.2 :=
            Finset.sum_congr rfl (fun p _ => by ring)
          have h6 : ∑ p ∈ scoreGrid.filter (fun p => ¬(p.1 > 1 ∨ p.2 > 1)),
              poisson_pmf (3/2) p.1 * poisson_pmf (6/5) p.2 * c = L * c := by
            rw [← Finset.sum_mul, ← hL]
          rw [h5, h6]
          have h7 : ∑ p ∈ scoreGrid.filter (fun p => p.1 > 1 ∨ p.2 > 1),
              poisson_pmf (3/2) p.1 * poisson_pmf (6/5) p.2 = S - L := by
            rw [hS, hL]
            linarith [hsplit]
          rw [h7]
          ring
      _ = S + (c - 1) * L := by ring
  have hSfact : S = (∑ i ∈ Finset.range (MAX_GOALS + 1), poisson_pmf (3/2) i) *
      (∑ j ∈ Finset.range (MAX_GOALS + 1), poisson_pmf (6/5) j) :=
    grid_sum_factor _ _
  have hPlt : (∑ i ∈ Finset.range (MAX_GOALS + 1), poisson_pmf (3/2) i) < 1 :=
    poisson_pmf_partial_sum_lt_one (3/2) (by norm_num) _
  have hQlt : (∑ j ∈ Finset.range (MAX_GOALS + 1), poisson_pmf (6/5) j) < 1 :=
    poisson_pmf_partial_sum_lt_one (6/5) (by norm_num) _
  have hQpos : 0 < ∑ j ∈ Finset.range (MAX_GOALS + 1), poisson_pmf (6/5) j :=
    Finset.sum_pos (fun k _ => poisson_pmf_pos _ (by norm_num) k) ⟨0, by decide⟩
  have hSlt : S < 1 := by
    rw [hSfact]
    exact lt_trans (mul_lt_of_lt_one_left hQpos hPlt) hQlt
  have hLS : L ≤ S := by
    rw [hL, hS]
    apply Finset.sum_le_sum_of_subset_of_nonneg (Finset.filter_subset _ _)
    intro p _ _
    exact le_of_lt (mul_pos (poisson_pmf_pos _ (by norm_num) _)
      (poisson_pmf_pos _ (by norm_num) _))
  have hTlt : ∑ p ∈ scoreGrid, score_matrix c2model 1 2 p < c := by
    rw [hT]
    nlinarith [mul_le_mul_of_nonneg_left hLS (by linarith : (0 : ℝ) ≤ c - 1),
      mul_lt_mul_of_pos_right hSlt (by linarith : (0 : ℝ) < c)]
  have hTpos : 0 < ∑ p ∈ scoreGrid, score_matrix c2model 1 2 p :=
    score_total_pos c2model 1 2 hrho
  have hE00 : 0 < poisson_pmf (3/2) 0 * poisson_pmf (6/5) 0 :=
    mul_pos (poisson_pmf_pos _ (by norm_num) 0) (poisson_pmf_pos _ (by norm_num) 0)
  rw [predict_score_probabilities_eq c2model 1 2 hrho]
  show poisson_pmf (3/2) 0 * poisson_pmf (6/5) 0 <
    score_matrix c2model 1 2 (0, 0) / ∑ q ∈ scoreGrid, score_matrix c2model 1 2 q
  have hcell00 : score_matrix c2model 1 2 (0, 0) =
      poisson_pmf (3/2) 0 * poisson_pmf (6/5) 0 * c := by
    rw [hcell (0, 0)]
    norm_num
  rw [hcell00, lt_div_iff hTpos]
  calc poisson_pmf (3/2) 0 * poisson_pmf (6/5) 0 * ∑ q ∈ scoreGrid, score_matrix c2model 1 2 q
      < poisson_pmf (3/2) 0 * poisson_pmf (6/5) 0 * c :=
        mul_lt_mul_of_pos_left hTlt hE00
    _ = poisson_pmf (3/2) 0 * poisson_pmf (6/5) 0 * c := rfl

end MatchAnalysis
